import Mathlib

/-!
Fuel price acquisition service: cache, extraction and orchestration

A shallow embedding of `src/services/cache.js`, `src/services/scraper.js`,
`src/services/geocoding.js`, `src/api/controllers/fuel.js`, `src/config.js` and the launch
guard of `src/utils/browser.js`.

* JavaScript strings are Lean strings; a value that a template literal
  renders is represented by the text it renders to.
* A `Map` is an association list in insertion order with at most one entry per key.
* `Date.now()` is an explicit argument (an integer number of milliseconds).
* `null` results are `none`.
* What the browser throws is an `Error` with its message; what the geocoding collaborator
  of the scraper service throws is any value, `null` and `undefined` included.
* Lower-casing and canonical decomposition are written out for the letters of ASCII and
  Latin-1; the city lookup also takes the functions of the runtime as a parameter.
-/

namespace CacheService

/-! ## services/cache.js -/

/-- The stored object `{ value, expiry }` of `set`. -/
structure Item (α : Type) where
  value : α
  expiry : Int
deriving DecidableEq, Repr

/-- The fields `cache` (a `Map`, in insertion order) and `enabled` of the service. -/
structure State (α : Type) where
  cache : List (String × Item α)
  enabled : Bool
deriving DecidableEq, Repr

/-- The state built by the constructor: an empty map, enabled. -/
def new (α : Type) : State α := { cache := [], enabled := true }

/-- The lookup `Map.prototype.get`: the item stored under the key, if any. -/
def mapGet {α : Type} : List (String × Item α) → String → Option (Item α)
  | [], _ => none
  | (k, it) :: rest, key => if k = key then some it else mapGet rest key

/-- The update `Map.prototype.set`: an existing key keeps its place and takes the
new item, a new key is appended. -/
def mapSet {α : Type} : List (String × Item α) → String → Item α → List (String × Item α)
  | [], key, it => [(key, it)]
  | (k, old) :: rest, key, it =>
    if k = key then (k, it) :: rest else (k, old) :: mapSet rest key it

/-- The removal `Map.prototype.delete`. -/
def mapDelete {α : Type} : List (String × Item α) → String → List (String × Item α)
  | [], _ => []
  | (k, it) :: rest, key => if k = key then rest else (k, it) :: mapDelete rest key

/-- Method `setEnabled(enabled)`. -/
def setEnabled {α : Type} (s : State α) (enabled : Bool) : State α :=
  { s with enabled := enabled }

/-- Method `get(key)` run at instant `now`: the returned value (`none` for `null`)
and the state it leaves. -/
def get {α : Type} (s : State α) (now : Int) (key : String) : Option α × State α :=
  if !s.enabled then (none, s)
  else
    match mapGet s.cache key with
    | none => (none, s)
    | some item =>
      if now > item.expiry then (none, { s with cache := mapDelete s.cache key })
      else (some item.value, s)

/-- Method `set(key, value, ttl)` run at instant `now`; `ttl` is in seconds. -/
def set {α : Type} (s : State α) (now : Int) (key : String) (value : α) (ttl : Int) : State α :=
  if !s.enabled then s
  else { s with cache := mapSet s.cache key { value := value, expiry := now + ttl * 1000 } }

/-- Method `delete(key)`. -/
def delete {α : Type} (s : State α) (key : String) : State α :=
  { s with cache := mapDelete s.cache key }

/-- Method `clear()`. -/
def clear {α : Type} (s : State α) : State α :=
  { s with cache := [] }

/-- The array sort of `generateKey`: `Array.prototype.sort` is stable, and with the
comparator `([keyA], [keyB]) => keyA.localeCompare(keyB)` an entry stays before another
one unless the comparator puts it strictly after.  Insertion from the right computes
that stable order. -/
def sortEntries (localeCompare : String → String → Int) (entries : List (String × String)) :
    List (String × String) :=
  List.insertionSort (fun a b => localeCompare a.1 b.1 ≤ 0) entries

/-- Method `generateKey(prefix, params)`.  `params` is the list `Object.entries(params)`
returns (each value as the text the template literal renders); the comparator of the
runtime, `String.prototype.localeCompare`, is a parameter. -/
def generateKey (localeCompare : String → String → Int) (pfx : String)
    (params : List (String × String)) : String :=
  pfx ++ ":" ++ "&".intercalate ((sortEntries localeCompare params).map fun e => e.1 ++ "=" ++ e.2)

/-- The text of the pairs that follow the first one in a key: each is `&`, the name, `=`
and the value. -/
def followingPairs (l : List (String × String)) : List Char :=
  (l.map (fun e => '&' :: (e.1.data ++ '=' :: e.2.data))).flatten

/-- Canonical composition of the sequence `e`, U+0301 (combining acute accent) into
the single character U+00E9; every other character is kept. -/
def composeCanonical : List Char → List Char
  | [] => []
  | [c] => [c]
  | c :: d :: rest =>
    if c = 'e' ∧ d = Char.ofNat 0x301 then Char.ofNat 0xE9 :: composeCanonical rest
    else c :: composeCanonical (d :: rest)

/-- A comparator with the properties ECMA-262 demands of `String.prototype.localeCompare`:
it is a consistent comparison function (a total order up to ties), and canonically equivalent
strings compare as 0 (here: `e` followed by U+0301, and U+00E9).  Strings that are not
equivalent are ordered by code points, which is not the collation of a particular locale;
the service itself takes the comparator of the runtime as a parameter. -/
def localeCompare (a b : String) : Int :=
  let na := composeCanonical a.data
  let nb := composeCanonical b.data
  if na < nb then -1 else if na = nb then 0 else 1

/-- An operation issued on the cache: a `get` or a `set`, with the instant of the call. -/
inductive Op (α : Type) where
  | get (now : Int) (key : String)
  | set (now : Int) (key : String) (value : α) (ttl : Int)

/-- Runs a sequence of operations; returns what the `get` calls returned, in order,
and the final state. -/
def runOps {α : Type} : State α → List (Op α) → List (Option α) × State α
  | s, [] => ([], s)
  | s, Op.get now key :: rest =>
    let r := get s now key
    let out := runOps r.2 rest
    (r.1 :: out.1, out.2)
  | s, Op.set now key value ttl :: rest => runOps (set s now key value ttl) rest

end CacheService

namespace ScraperService

/-! ## services/scraper.js: text primitives

Texts are handled as lists of characters.  The regular expressions of the source are
written out as the scanners they denote; each of them has a single way to match at a
given start position, so no backtracking is involved. -/

/-- The class `\s` of regular expressions, also the characters `trim()` removes. -/
def isWhiteSpace (c : Char) : Bool :=
  let n := c.toNat
  (9 ≤ n && n ≤ 13) || n == 32 || n == 160 || n == 0x1680 || (0x2000 ≤ n && n ≤ 0x200A) ||
    n == 0x2028 || n == 0x2029 || n == 0x202F || n == 0x205F || n == 0x3000 || n == 0xFEFF

/-- Line terminators: the characters that `.` does not match. -/
def isLineTerminator (c : Char) : Bool :=
  let n := c.toNat
  n == 10 || n == 13 || n == 0x2028 || n == 0x2029

/-- The class `\d`. -/
def isDigit (c : Char) : Bool := 48 ≤ c.toNat && c.toNat ≤ 57

/-- The class `[\d,]`. -/
def isPriceChar (c : Char) : Bool := isDigit c || c == ','

/-- The class `[A-Z]`. -/
def isUpperAZ (c : Char) : Bool := 65 ≤ c.toNat && c.toNat ≤ 90

/-- The method `String.prototype.trim`. -/
def trim (s : List Char) : List Char :=
  (((s.dropWhile isWhiteSpace).reverse).dropWhile isWhiteSpace).reverse

/-- Whether `s` starts with `p`. -/
def startsWith : List Char → List Char → Bool
  | _, [] => true
  | [], _ :: _ => false
  | c :: s, d :: p => c == d && startsWith s p

/-- The method `String.prototype.includes`. -/
def includes : List Char → List Char → Bool
  | [], p => startsWith [] p
  | c :: s, p => startsWith (c :: s) p || includes s p

/-- Lower-casing of one character: the letters of ASCII and of Latin-1 (which cover the
keywords tested by the source); other characters are kept. -/
def toLowerChar (c : Char) : Char :=
  let n := c.toNat
  if (65 ≤ n ∧ n ≤ 90) ∨ (192 ≤ n ∧ n ≤ 222 ∧ n ≠ 215) then Char.ofNat (n + 32) else c

/-- The method `String.prototype.toLowerCase`. -/
def toLowerCase (s : List Char) : List Char := s.map toLowerChar

/-- The call `replace(',', '.')`: the first comma becomes a point. -/
def replaceFirstComma : List Char → List Char
  | [] => []
  | c :: s => if c = ',' then '.' :: s else c :: replaceFirstComma s

/-! ## Numbers -/

/-- A non-negative decimal number `mantissa / 10 ^ scale`. -/
structure Decimal where
  mantissa : Nat
  scale : Nat
deriving DecidableEq, Repr

/-- The rational value of a decimal. -/
def Decimal.toRat (d : Decimal) : ℚ := (d.mantissa : ℚ) / 10 ^ d.scale

/-- A price as `parseFloat` returns it: `NaN` or a decimal value.  The value is kept
exactly; the rounding to a double is monotone, so it does not change which of two
prices is the smaller. -/
inductive JsNumber where
  | nan
  | value (d : Decimal)
deriving DecidableEq, Repr

/-- The number read from a run of decimal digits. -/
def digitsToNat (ds : List Char) : Nat :=
  ds.foldl (fun n c => 10 * n + (c.toNat - 48)) 0

/-- The function `parseFloat` on the texts it receives here: digits, commas and points.
It reads the longest prefix `digits`, `digits.digits`, `.digits` or `digits.`, and returns
`NaN` when there is no digit to read. -/
def parseFloat (s : List Char) : JsNumber :=
  let s := s.dropWhile isWhiteSpace
  let ip := s.takeWhile isDigit
  match s.dropWhile isDigit with
  | '.' :: f =>
    let fp := f.takeWhile isDigit
    if ip = [] ∧ fp = [] then JsNumber.nan
    else JsNumber.value ⟨digitsToNat (ip ++ fp), fp.length⟩
  | _ => if ip = [] then JsNumber.nan else JsNumber.value ⟨digitsToNat ip, 0⟩

/-- The sign of `a.price - b.price` as the sort reads it; a `NaN` difference counts as 0. -/
def comparePrice : JsNumber → JsNumber → Int
  | JsNumber.value a, JsNumber.value b =>
    if a.mantissa * 10 ^ b.scale < b.mantissa * 10 ^ a.scale then -1
    else if a.mantissa * 10 ^ b.scale = b.mantissa * 10 ^ a.scale then 0 else 1
  | _, _ => 0

/-- The order `a.price ≤ b.price` on numbers; nothing is below or above `NaN`. -/
def JsNumber.le : JsNumber → JsNumber → Prop
  | JsNumber.value a, JsNumber.value b => a.toRat ≤ b.toRat
  | _, _ => False

/-! ## The records -/

/-- A station record.  The fields `lastUpdate` (a clock reading taken in the page) and
`latitude`, `longitude` (copied from the data attributes of a card) take no part in any
decision of the service and are not represented. -/
structure Station where
  name : String
  address : String
  city : String
  state : String
  price : JsNumber
  fuelType : String
deriving DecidableEq, Repr

/-- What the in-page script reads of one card element: the text content of its first
name element (`h3, .nome-estabelecimento, .titulo`), address element
(`.endereco, .local, address`) and price element (`.preco, .valor, .price`), each absent
when the selector matches nothing. -/
structure Card where
  nameText : Option String
  addressText : Option String
  priceText : Option String
deriving DecidableEq, Repr

/-! ## The patterns -/

/-- The pattern `R\$\s*([\d,]+)` anchored at the start of `s`: the captured group and
the text after the match. -/
def matchPriceAt (s : List Char) : Option (List Char × List Char) :=
  match s with
  | 'R' :: '$' :: t =>
    let u := t.dropWhile isWhiteSpace
    if u.takeWhile isPriceChar = [] then none
    else some (u.takeWhile isPriceChar, u.dropWhile isPriceChar)
  | _ => none

/-- The leftmost match of `R\$\s*([\d,]+)` in `s`. -/
def execPrice : List Char → Option (List Char × List Char)
  | [] => none
  | c :: s =>
    match matchPriceAt (c :: s) with
    | some r => some r
    | none => execPrice s

/-- The part `(.*?)<\/h3>`: the shortest run of characters other than line terminators
that is followed by the closing tag; the run and the text after the closing tag. -/
def matchHeadingBody : List Char → Option (List Char × List Char)
  | [] => none
  | c :: s =>
    if startsWith (c :: s) "</h3>".data then some ([], (c :: s).drop 5)
    else if isLineTerminator c then none
    else
      match matchHeadingBody s with
      | some (body, rest) => some (c :: body, rest)
      | none => none

/-- The pattern `<h3[^>]*>(.*?)<\/h3>` anchored at the start of `s`. -/
def matchHeadingAt (s : List Char) : Option (List Char × List Char) :=
  match s with
  | '<' :: 'h' :: '3' :: t =>
    match t.dropWhile (fun c => c != '>') with
    | _ :: u => matchHeadingBody u
    | [] => none
  | _ => none

/-- The leftmost match of `<h3[^>]*>(.*?)<\/h3>` in `s`. -/
def execHeading : List Char → Option (List Char × List Char)
  | [] => none
  | c :: s =>
    match matchHeadingAt (c :: s) with
    | some r => some r
    | none => execHeading s

/-- The pattern `([^,]+),\s*([A-Z]{2})` anchored at the start of `s`: the two groups. -/
def matchCityStateAt (s : List Char) : Option (List Char × List Char) :=
  if s.takeWhile (fun c => c != ',') = [] then none
  else
    match s.dropWhile (fun c => c != ',') with
    | _ :: t =>
      match t.dropWhile isWhiteSpace with
      | a :: b :: _ =>
        if isUpperAZ a && isUpperAZ b then some (s.takeWhile (fun c => c != ','), [a, b])
        else none
      | _ => none
    | [] => none

/-- The leftmost match of `([^,]+),\s*([A-Z]{2})` in `s`. -/
def execCityState : List Char → Option (List Char × List Char)
  | [] => none
  | c :: s =>
    match matchCityStateAt (c :: s) with
    | some r => some r
    | none => execCityState s

/-! ## Extraction -/

/-- The test `isGasStation` on a card name. -/
def isGasStation (name : List Char) : Bool :=
  includes (toLowerCase name) "posto".data ||
  includes (toLowerCase name) "ipiranga".data ||
  includes (toLowerCase name) "shell".data ||
  includes (toLowerCase name) "petrobras".data ||
  includes (toLowerCase name) "br".data ||
  includes (toLowerCase name) "combustivel".data ||
  includes (toLowerCase name) "combustível".data

/-- The price of a card: 0 without a price element or without a match of the pattern. -/
def cardPrice (priceText : Option String) : JsNumber :=
  match priceText with
  | none => JsNumber.value ⟨0, 0⟩
  | some t =>
    match execPrice (trim t.data) with
    | some (group, _) => parseFloat (replaceFirstComma group)
    | none => JsNumber.value ⟨0, 0⟩

/-- The body of the `cards.forEach` callback: the record pushed for a card, or nothing
for a card that is not a fuel station. -/
def extractCard (fuelType : String) (card : Card) : Option Station :=
  let name : List Char :=
    match card.nameText with
    | some t => trim t.data
    | none => "Posto sem nome".data
  if !isGasStation name then none
  else
    let address : List Char :=
      match card.addressText with
      | some t => trim t.data
      | none => "Endereço não disponível".data
    let cityState : List Char × List Char :=
      match execCityState address with
      | some (c, st) => (trim c, trim st)
      | none => ("Cidade não disponível".data, "BA".data)
    some { name := String.mk name, address := String.mk address,
           city := String.mk cityState.1, state := String.mk cityState.2,
           price := cardPrice card.priceText, fuelType := fuelType }

/-- The call `results.sort((a, b) => a.price - b.price)`: a stable sort; a record
stays before another one unless the comparator puts it strictly after. -/
def sortByPrice (results : List Station) : List Station :=
  List.insertionSort (fun a b => comparePrice a.price b.price ≤ 0) results

/-- The script run in the page by `extractStationsFromPage`, on the cards matched by
`.card-estabelecimento, .estabelecimento-card, .posto-card, .resultado-item`. -/
def evaluateCards (fuelType : String) (cards : List Card) : List Station :=
  if cards.length = 0 then [] else sortByPrice (cards.filterMap (extractCard fuelType))

/-- The test that opens the manual extraction: the markup contains `R$` and one of
`posto`, `Posto`. -/
def hasPriceInfo (html : List Char) : Bool :=
  includes html "R$".data && (includes html "posto".data || includes html "Posto".data)

/-- The `while` loop of the manual extraction.  `priceRest` and `nameRest` are the parts
of the markup after the `lastIndex` of `priceRegex` and of `nameRegex`; a failed
`nameRegex.exec` puts its `lastIndex` back to the start of the markup.  Every turn
consumes at least one character of `priceRest`, which bounds the number of turns. -/
def manualLoop (fuelType : String) (html : List Char) :
    Nat → List Char → List Char → List Station
  | 0, _, _ => []
  | n + 1, priceRest, nameRest =>
    match execPrice priceRest with
    | none => []
    | some (group, priceRest2) =>
      match execHeading nameRest with
      | some (body, nameRest2) =>
        { name := String.mk (trim body), address := "Endereço não disponível",
          city := "Salvador", state := "BA",
          price := parseFloat (replaceFirstComma group), fuelType := fuelType } ::
          manualLoop fuelType html n priceRest2 nameRest2
      | none => manualLoop fuelType html n priceRest2 html

/-- The records `manualStations` of the manual extraction of a markup. -/
def manualStations (fuelType : String) (html : String) : List Station :=
  manualLoop fuelType html.data (html.data.length + 1) html.data html.data

/-! ## The browser, the clock and the run of a request

The service talks to a browser through `await`ed calls, each of which returns or throws.
The environment is an oracle that answers every call from the history of the calls made so
far; quantifying over environments covers every behaviour of the browser, of the portal
and of the clock.  A run threads the history and the cache. -/

/-- A thrown `Error`, with its `message`. -/
structure JsError where
  message : String
deriving DecidableEq, Repr

/-- The result of an awaited call: a value, or a thrown error. -/
inductive Outcome (α : Type) where
  | ok (a : α)
  | error (e : JsError)
deriving DecidableEq, Repr

/-- A pair `{ latitude, longitude }`. -/
structure Coordinates where
  latitude : ℚ
  longitude : ℚ
deriving DecidableEq

/-- The addresses the service navigates to: `config.precoHora.baseUrl`,
`config.precoHora.searchUrl`, and `searchUrl` followed by the query string built from
`termo`, `latitude`, `longitude`, `raio`, `ordem: 'preco'`, `tipo_ordem: 'ASC'`. -/
inductive Url where
  | base
  | search
  | searchWith (termo : String) (latitude longitude : ℚ) (raio : Int)
deriving DecidableEq

/-- The calls on a page that return nothing. -/
inductive Action where
  | goto (url : Url)
  | scroll
  | randomDelay
  | waitForTimeout (ms : Nat)
  | click (selector : String)
  | type (selector text : String)
  | setCoordinates (latitude longitude : ℚ)
  | setRadius (radius : Int)
  | close
deriving DecidableEq

/-- One awaited call (or clock reading) of a run, with what it returned or threw. -/
inductive Event where
  | getPage (r : Outcome Unit)
  | act (a : Action) (r : Outcome Unit)
  | query (selector : String) (r : Outcome Bool)
  | evaluateCards (r : Outcome (List Card))
  | content (r : Outcome String)
  | dateNow (t : Int)
deriving DecidableEq

/-- The environment of the service: the runtime functions `localeCompare` and number
rendering, `config.cache.ttl` (read from the process environment), and the answers of the
clock and of the browser as functions of the history. -/
structure Env where
  localeCompare : String → String → Int
  numberToString : ℚ → String
  cacheTtl : Int
  now : List Event → Int
  getPage : List Event → Outcome Unit
  act : List Event → Action → Outcome Unit
  query : List Event → String → Outcome Bool
  evaluateCards : List Event → Outcome (List Card)
  content : List Event → Outcome String

/-- The mutable state a run threads: the history of calls and the cache singleton. -/
structure World where
  log : List Event
  cache : CacheService.State (List Station)
deriving DecidableEq

/-- An asynchronous computation of the service. -/
def Run (α : Type) : Type := Env → World → Outcome α × World

namespace Run

/-- Returns a value. -/
def ret {α : Type} (a : α) : Run α := fun _ w => (Outcome.ok a, w)

/-- Throws an error. -/
def throw {α : Type} (e : JsError) : Run α := fun _ w => (Outcome.error e, w)

/-- Sequencing: a thrown error skips the rest. -/
def andThen {α β : Type} (m : Run α) (f : α → Run β) : Run β := fun env w =>
  match m env w with
  | (Outcome.ok a, w1) => f a env w1
  | (Outcome.error e, w1) => (Outcome.error e, w1)

/-- The statement `try { m } catch (error) { h error }`. -/
def tryCatch {α : Type} (m : Run α) (h : JsError → Run α) : Run α := fun env w =>
  match m env w with
  | (Outcome.ok a, w1) => (Outcome.ok a, w1)
  | (Outcome.error e, w1) => h e env w1

/-- The statement `try { m } finally { fin }`: `fin` runs on every exit of `m`; an error
thrown by `fin` replaces the result of `m`. -/
def tryFinally {α : Type} (m : Run α) (fin : Run Unit) : Run α := fun env w =>
  match m env w with
  | (r, w1) =>
    match fin env w1 with
    | (Outcome.ok _, w2) => (r, w2)
    | (Outcome.error e, w2) => (Outcome.error e, w2)

end Run

instance : Monad Run where
  pure := Run.ret
  bind := Run.andThen

/-- The call `browserManager.getPage()`. -/
def getPage : Run Unit := fun env w =>
  (env.getPage w.log, { w with log := w.log ++ [Event.getPage (env.getPage w.log)] })

/-- A call on the page that returns nothing. -/
def perform (a : Action) : Run Unit := fun env w =>
  (env.act w.log a, { w with log := w.log ++ [Event.act a (env.act w.log a)] })

/-- The call `page.$(selector)`: whether an element was found. -/
def query (selector : String) : Run Bool := fun env w =>
  (env.query w.log selector,
    { w with log := w.log ++ [Event.query selector (env.query w.log selector)] })

/-- The call `page.evaluate(...)` of the extraction: the cards the in-page script sees. -/
def pageCards : Run (List Card) := fun env w =>
  (env.evaluateCards w.log,
    { w with log := w.log ++ [Event.evaluateCards (env.evaluateCards w.log)] })

/-- The call `page.content()`. -/
def pageContent : Run String := fun env w =>
  (env.content w.log, { w with log := w.log ++ [Event.content (env.content w.log)] })

/-- The call `cacheService.get(key)`; `Date.now()` is read when the cache is enabled
and holds the key. -/
def cacheGet (key : String) : Run (Option (List Station)) := fun env w =>
  if w.cache.enabled && (CacheService.mapGet w.cache.cache key).isSome then
    (Outcome.ok (CacheService.get w.cache (env.now w.log) key).1,
      { log := w.log ++ [Event.dateNow (env.now w.log)],
        cache := (CacheService.get w.cache (env.now w.log) key).2 })
  else (Outcome.ok none, w)

/-- The call `cacheService.set(key, value, ttl)`; `Date.now()` is read when the cache is
enabled. -/
def cacheSet (key : String) (value : List Station) (ttl : Int) : Run Unit := fun env w =>
  if w.cache.enabled then
    (Outcome.ok (),
      { log := w.log ++ [Event.dateNow (env.now w.log)],
        cache := CacheService.set w.cache (env.now w.log) key value ttl })
  else (Outcome.ok (), w)

/-- The value `config.cache.ttl`. -/
def configCacheTtl : Run Int := fun env w => (Outcome.ok env.cacheTtl, w)

/-- The method `browserManager.simulateHumanBehavior(page)`: a random scroll, then a
random delay. -/
def simulateHumanBehavior : Run Unit := do
  perform Action.scroll
  perform Action.randomDelay

/-- The loop over candidate selectors: the first selector for which `page.$` finds an
element and `page.click` succeeds ends the loop with `true`; a selector that finds
nothing, or any error thrown for it, moves on to the next one. -/
def trySelectors : List String → Run Bool
  | [] => Run.ret false
  | selector :: rest => fun env w =>
    match query selector env w with
    | (Outcome.ok true, w1) =>
      match perform (Action.click selector) env w1 with
      | (Outcome.ok _, w2) => (Outcome.ok true, w2)
      | (Outcome.error _, w2) => trySelectors rest env w2
    | (_, w1) => trySelectors rest env w1

/-- The statement `if (!found) { fallback }`. -/
def otherwise (found : Bool) (fallback : Run Unit) : Run Unit :=
  if found then Run.ret () else fallback

/-- The list `buttonSelectors`. -/
def buttonSelectors : List String :=
  [".btn-combustivel", "a[href*=\"combustivel\"]", "button:contains(\"Combustível\")",
   "a:contains(\"Combustível\")", ".card-combustivel"]

/-- The list `fuelSelectors`. -/
def fuelSelectors (fuelType searchTerm : String) : List String :=
  ["input[value=\"" ++ fuelType ++ "\"]",
   "input[name=\"combustivel\"][value=\"" ++ fuelType ++ "\"]",
   "label:contains(\"" ++ searchTerm ++ "\")",
   "div[data-combustivel=\"" ++ fuelType ++ "\"]"]

/-- The list `searchButtonSelectors`. -/
def searchButtonSelectors : List String :=
  ["button[type=\"submit\"]", "input[type=\"submit\"]", "button.search-button",
   "button:contains(\"Buscar\")", "a:contains(\"Buscar\")"]

/-- The expression `config.fuelTypes[fuelType]?.searchTerm || 'gasolina comum'`. -/
def searchTermOf (fuelType : String) : String :=
  if fuelType = "gasolina" then "gasolina comum"
  else if fuelType = "gasolina_aditivada" then "gasolina aditivada"
  else if fuelType = "etanol" then "etanol"
  else if fuelType = "diesel" then "diesel"
  else if fuelType = "gnv" then "gnv"
  else "gasolina comum"

/-- Method `extractStationsFromPage(page, fuelType)`. -/
def extractStationsFromPage (fuelType : String) : Run (List Station) :=
  Run.tryCatch
    (do
      let cards ← pageCards
      let stations := evaluateCards fuelType cards
      if stations.length = 0 then
        let html ← pageContent
        if hasPriceInfo html.data then
          return manualStations fuelType html
        else
          return stations
      else
        return stations)
    (fun _ => Run.ret [])

/-- The address of the alternative search: the term `posto`. -/
def alternativeUrl (coordinates : Coordinates) (radius : Int) : Url :=
  Url.searchWith "posto" coordinates.latitude coordinates.longitude radius

/-- Method `getFuelStationsAlternative(page, coordinates, fuelType, radius)`. -/
def getFuelStationsAlternative (coordinates : Coordinates) (fuelType : String)
    (radius : Int) : Run (List Station) :=
  Run.tryCatch
    (do
      perform (Action.goto (alternativeUrl coordinates radius))
      perform (Action.waitForTimeout 3000)
      let stations ← extractStationsFromPage fuelType
      return stations)
    (fun _ => Run.ret [])

/-- The steps of `getFuelStationsByCoordinates` from the landing navigation to the
wait for the results. -/
def driveSearch (coordinates : Coordinates) (fuelType : String) (radius : Int) : Run Unit := do
  let searchTerm := searchTermOf fuelType
  perform (Action.goto Url.base)
  simulateHumanBehavior
  let buttonFound ← trySelectors buttonSelectors
  otherwise buttonFound (perform (Action.goto Url.search))
  perform (Action.waitForTimeout 1000)
  let fuelSelected ← trySelectors (fuelSelectors fuelType searchTerm)
  otherwise fuelSelected
    (perform (Action.type "input[type=\"search\"], input[name=\"termo\"]" searchTerm))
  perform (Action.setCoordinates coordinates.latitude coordinates.longitude)
  perform (Action.setRadius radius)
  let searchButtonFound ← trySelectors searchButtonSelectors
  otherwise searchButtonFound
    (perform (Action.goto
      (Url.searchWith searchTerm coordinates.latitude coordinates.longitude radius)))
  perform (Action.waitForTimeout 3000)

/-- The inner `try` block of `getFuelStationsByCoordinates`. -/
def searchOnPage (cacheKey : String) (coordinates : Coordinates) (fuelType : String)
    (radius : Int) : Run (List Station) := do
  driveSearch coordinates fuelType radius
  let stations ← extractStationsFromPage fuelType
  if stations.length = 0 then
    getFuelStationsAlternative coordinates fuelType radius
  else
    let ttl ← configCacheTtl
    cacheSet cacheKey stations ttl
    return stations

/-- The cache key of a query. -/
def cacheKeyOf (env : Env) (coordinates : Coordinates) (fuelType : String) (radius : Int) :
    String :=
  CacheService.generateKey env.localeCompare "coordinates"
    [("lat", env.numberToString coordinates.latitude),
     ("lng", env.numberToString coordinates.longitude),
     ("type", fuelType),
     ("radius", env.numberToString radius)]

/-- Method `getFuelStationsByCoordinates(coordinates, fuelType, radius)`. -/
def getFuelStationsByCoordinates (coordinates : Coordinates) (fuelType : String)
    (radius : Int) : Run (List Station) := fun env =>
  (do
    let cacheKey := cacheKeyOf env coordinates fuelType radius
    let cachedData ← cacheGet cacheKey
    match cachedData with
    | some data => return data
    | none =>
      Run.tryCatch
        (do
          getPage
          Run.tryFinally (searchOnPage cacheKey coordinates fuelType radius)
            (perform Action.close))
        (fun error => Run.throw ⟨"Falha ao buscar postos: " ++ error.message⟩) :
      Run (List Station)) env

/-- The `meta` object of a postal-code answer. -/
structure CepMeta where
  total : Nat
  radius : Int
  cep : String
  coordinates : Coordinates
deriving DecidableEq

/-- The `meta` object of a city answer. -/
structure CityMeta where
  total : Nat
  radius : Int
  city : String
  state : String
  coordinates : Coordinates
deriving DecidableEq

/-- The envelope `{ success, data, meta, error? }`. -/
structure Envelope (μ : Type) where
  success : Bool
  data : List Station
  meta : μ
  error : Option String
deriving DecidableEq

/-- A value thrown by a collaborator, as far as a `catch` handler looks at it: `null`,
`undefined`, or any other value with what the read of its property `message` gives (the
text of an `Error`; `none` for a value without that property). -/
inductive Thrown where
  | null
  | undefined
  | value (message : Option String)
deriving DecidableEq

/-- What a call of a collaborator does: it returns a value or throws one. -/
inductive Completion (α : Type) where
  | returned (a : α)
  | thrown (v : Thrown)
deriving DecidableEq

/-- The read `error.message` of a `catch` handler: on `null` and on `undefined` the read
itself throws a `TypeError` (with the text of V8). -/
def readMessage : Thrown → Outcome (Option String)
  | Thrown.null => Outcome.error ⟨"Cannot read properties of null (reading 'message')"⟩
  | Thrown.undefined =>
    Outcome.error ⟨"Cannot read properties of undefined (reading 'message')"⟩
  | Thrown.value message => Outcome.ok message

/-- Method `getFuelStationsByCep(cep, fuelType, radius, geocodingService)`; `geocoding`
is what the call `geocodingService.getCepCoordinates(cep)` returns or throws.  The `catch`
handler reads `error.message` before it builds the envelope; when that read throws, the
method rejects.  What `getFuelStationsByCoordinates` throws is always an `Error`. -/
def getFuelStationsByCep (cep fuelType : String) (radius : Int)
    (geocoding : Completion Coordinates) (env : Env) (w : World) :
    Outcome (Envelope CepMeta) × World :=
  match geocoding with
  | Completion.thrown error =>
    match readMessage error with
    | Outcome.error typeError => (Outcome.error typeError, w)
    | Outcome.ok message =>
      (Outcome.ok { success := false, data := [],
                    meta := { total := 0, radius := radius, cep := cep,
                              coordinates := ⟨0, 0⟩ },
                    error := message }, w)
  | Completion.returned coordinates =>
    match getFuelStationsByCoordinates coordinates fuelType radius env w with
    | (Outcome.ok stations, w1) =>
      (Outcome.ok { success := true, data := stations,
                    meta := { total := stations.length, radius := radius, cep := cep,
                              coordinates := coordinates },
                    error := none }, w1)
    | (Outcome.error error, w1) =>
      (Outcome.ok { success := false, data := [],
                    meta := { total := 0, radius := radius, cep := cep,
                              coordinates := ⟨0, 0⟩ },
                    error := some error.message }, w1)

/-- Method `getFuelStationsByCity(city, state, fuelType, radius, geocodingService)`;
`geocoding` is what the call `geocodingService.getCityCoordinates(city, state)` returns
or throws.  The `catch` handler is that of `getFuelStationsByCep`. -/
def getFuelStationsByCity (city state fuelType : String) (radius : Int)
    (geocoding : Completion Coordinates) (env : Env) (w : World) :
    Outcome (Envelope CityMeta) × World :=
  match geocoding with
  | Completion.thrown error =>
    match readMessage error with
    | Outcome.error typeError => (Outcome.error typeError, w)
    | Outcome.ok message =>
      (Outcome.ok { success := false, data := [],
                    meta := { total := 0, radius := radius, city := city, state := state,
                              coordinates := ⟨0, 0⟩ },
                    error := message }, w)
  | Completion.returned coordinates =>
    match getFuelStationsByCoordinates coordinates fuelType radius env w with
    | (Outcome.ok stations, w1) =>
      (Outcome.ok { success := true, data := stations,
                    meta := { total := stations.length, radius := radius, city := city,
                              state := state, coordinates := coordinates },
                    error := none }, w1)
    | (Outcome.error error, w1) =>
      (Outcome.ok { success := false, data := [],
                    meta := { total := 0, radius := radius, city := city, state := state,
                              coordinates := ⟨0, 0⟩ },
                    error := some error.message }, w1)

/-! ## Predicates on histories and records -/

/-- A computation only appends events, and every event it appends satisfies `P`. -/
def Emits {α : Type} (P : Event → Prop) (m : Run α) : Prop :=
  ∀ env w, ∃ es, (m env w).2.log = w.log ++ es ∧ ∀ e ∈ es, P e

/-- A failed navigation to an address in `U` makes the computation throw that error. -/
def FailsOnNavigationError {α : Type} (U : Url → Prop) (m : Run α) : Prop :=
  ∀ env w, ∃ es, (m env w).2.log = w.log ++ es ∧
    ∀ url e, Event.act (Action.goto url) (Outcome.error e) ∈ es → U url →
      (m env w).1 = Outcome.error e

/-- An event that acquires or closes a tab. -/
def Event.isTabEvent : Event → Bool
  | Event.getPage _ => true
  | Event.act Action.close _ => true
  | _ => false

/-- A reading of the clock. -/
def Event.isDateNow : Event → Bool
  | Event.dateNow _ => true
  | _ => false

/-- A sequence of records in ascending order of price. -/
def SortedByPrice (stations : List Station) : Prop :=
  stations.Pairwise (fun a b => a.price.le b.price)

/-- How an extraction can end with no record, given the calls `post` it made: the page
script threw; or the page script found no station card and then the reading of the markup
threw, or the markup fails the test `hasPriceInfo`, or the manual extraction of the markup
finds no record. -/
def ExtractionEndsEmpty (fuelType : String) (post : List Event) : Prop :=
  (∃ e, post = [Event.evaluateCards (Outcome.error e)]) ∨
  (∃ cards c, post = [Event.evaluateCards (Outcome.ok cards), Event.content c] ∧
    evaluateCards fuelType cards = [] ∧
    ((∃ e, c = Outcome.error e) ∨
     (∃ html, c = Outcome.ok html ∧
        (hasPriceInfo html.data = false ∨ manualStations fuelType html = []))))

/-- How the alternative search can end with no record, given the outcome `r` of its
navigation and the calls `post` made after it: the navigation or the wait threw, or the
extraction on the page of the alternative search ended with no record. -/
def AlternativeEndsEmpty (fuelType : String) (r : Outcome Unit) (post : List Event) : Prop :=
  (∃ e, r = Outcome.error e ∧ post = []) ∨
  (r = Outcome.ok () ∧
    ((∃ e, post = [Event.act (Action.waitForTimeout 3000) (Outcome.error e)]) ∨
     (∃ post2, post = Event.act (Action.waitForTimeout 3000) (Outcome.ok ()) :: post2 ∧
        ExtractionEndsEmpty fuelType post2)))

/-- A reading of the markup. -/
def Event.isContent : Event → Bool
  | Event.content _ => true
  | _ => false

/-- A navigation to the given address. -/
def Event.isNavigationTo (url : Url) : Event → Bool
  | Event.act (Action.goto u) _ => u == url
  | _ => false

/-- In a piece of history, every reading of the markup directly follows a page script
that returned cards among which the structured pass finds no station. -/
def ContentFollowsEmptyPass (fuelType : String) (es : List Event) : Prop :=
  ∀ a c b, es = a ++ Event.content c :: b →
    ∃ a2 cards, a = a2 ++ [Event.evaluateCards (Outcome.ok cards)] ∧
      evaluateCards fuelType cards = []

/-- A computation only appends events, and what it appends satisfies
`ContentFollowsEmptyPass`. -/
def ReadsMarkupAfterEmptyPass {α : Type} (fuelType : String) (m : Run α) : Prop :=
  ∀ env w, ∃ es, (m env w).2.log = w.log ++ es ∧ ContentFollowsEmptyPass fuelType es

/-! ## Sample environments -/

/-- The state of a fresh process: no call made yet, an empty enabled cache. -/
def World.fresh : World := { log := [], cache := CacheService.new (List Station) }

/-- Rendering of a whole number (the sample queries use whole-number coordinates). -/
def renderWhole (q : ℚ) : String := toString q.num

/-- A session in which `getPage` succeeds and no candidate selector matches; the page
calls, the cards and the markup are answered by the given functions. -/
def sampleEnv (act : List Event → Action → Outcome Unit)
    (cards : List Event → Outcome (List Card)) (content : List Event → Outcome String) : Env :=
  { localeCompare := CacheService.localeCompare
    numberToString := renderWhole
    cacheTtl := 3600
    now := fun log => (log.length : Int)
    getPage := fun _ => Outcome.ok ()
    act := act
    query := fun _ _ => Outcome.ok false
    evaluateCards := cards
    content := content }

/-- A session in which every call succeeds and every page shows the same cards and markup. -/
def staticEnv (cards : List Card) (html : String) : Env :=
  sampleEnv (fun _ _ => Outcome.ok ()) (fun _ => Outcome.ok cards) (fun _ => Outcome.ok html)

/-- The sample query: whole-number coordinates near Salvador. -/
def sampleCoordinates : Coordinates := ⟨-13, -38⟩

/-- Whether the alternative search of the sample query has been navigated to. -/
def afterAlternative (log : List Event) : Bool :=
  log.any (fun e => e == Event.act (Action.goto (alternativeUrl sampleCoordinates 5)) (Outcome.ok ()))

/-- A session in which every call succeeds, the first results page shows no card and
no price, and the page of the alternative search shows one station card. -/
def alternativeOnlyEnv : Env :=
  sampleEnv (fun _ _ => Outcome.ok ())
    (fun log =>
      if afterAlternative log then
        Outcome.ok [⟨some "Posto Central", some "Av. Sete, Salvador, BA", some "R$ 5,79"⟩]
      else Outcome.ok [])
    (fun _ => Outcome.ok "<html><body></body></html>")

/-- A session in which every call succeeds except the navigation of the alternative
search, which times out; no page shows a card or a price. -/
def alternativeTimeoutEnv : Env :=
  sampleEnv
    (fun _ a =>
      if a = Action.goto (alternativeUrl sampleCoordinates 5) then
        Outcome.error ⟨"Navigation timeout of 30000 ms exceeded"⟩
      else Outcome.ok ())
    (fun _ => Outcome.ok []) (fun _ => Outcome.ok "<html><body></body></html>")

/-- A results page without any card element, whose markup lists two stations with the
dearer one first. -/
def descendingMarkup : String :=
  "<html><body><h3>Posto A</h3><p>R$ 9,00</p><h3>Posto B</h3><p>R$ 1,50</p></body></html>"

/-- The card of a shop that is not a fuel station, with a visible price. -/
def shopCard : Card :=
  { nameText := some "Mercado Bom", addressText := some "Rua A, Salvador, BA",
    priceText := some "R$ 5,00" }

/-- The markup of a results page for the term `posto` that shows the card `shopCard`. -/
def shopMarkup : String :=
  "<html><head><title>Busca: posto</title></head><body>" ++
  "<div class=\"card-estabelecimento\"><h3>Mercado Bom</h3>" ++
  "<address>Rua A, Salvador, BA</address><span class=\"preco\">R$ 5,00</span></div>" ++
  "</body></html>"

/-- The markup of a page without any card element that shows a heading and a price and
contains neither `posto` nor `Posto`. -/
def ungatedMarkup : String :=
  "<html><body><h3>Auto Center</h3><p>R$ 5,00</p></body></html>"

/-- A session in which the landing navigation times out. -/
def landingTimeoutEnv : Env :=
  sampleEnv
    (fun _ a =>
      if a = Action.goto Url.base then
        Outcome.error ⟨"Navigation timeout of 30000 ms exceeded"⟩
      else Outcome.ok ())
    (fun _ => Outcome.ok []) (fun _ => Outcome.ok "<html><body></body></html>")

/-- The markup of a page without any card element that shows two headings and then one
price. -/
def twoHeadingsMarkup : String :=
  "<html><body>" ++ "<h3>Posto A</h3>" ++ "<h3>Posto B</h3>" ++ "<p>" ++ "R$ 1,00" ++
  "</p></body></html>"

/-- A station card whose price element shows `R$` followed by a lone comma. -/
def commaPriceCard : Card :=
  { nameText := some "Posto X", addressText := none, priceText := some "R$ ," }

end ScraperService

namespace Config

/-! ## config.js and property reads -/

/-- The names of the members that every object inherits from `Object.prototype`. -/
def objectPrototypeMembers : List String :=
  ["constructor", "__defineGetter__", "__defineSetter__", "hasOwnProperty",
   "__lookupGetter__", "__lookupSetter__", "isPrototypeOf", "propertyIsEnumerable",
   "toString", "valueOf", "__proto__", "toLocaleString"]

/-- The value of a property read `table[name]` on an object literal: the value of an own
property, a member inherited from `Object.prototype` (a function or an object, so a truthy
value), or `undefined`. -/
inductive Property (α : Type) where
  | own (value : α)
  | inherited (name : String)
  | undefined
deriving DecidableEq

/-- The property read `table[name]`; the own properties of the object literal are given
in the order in which they are written. -/
def readProperty {α : Type} (table : List (String × α)) (name : String) : Property α :=
  match table.lookup name with
  | some v => Property.own v
  | none => if name ∈ objectPrototypeMembers then Property.inherited name else Property.undefined

/-- The table `config.fuelTypes`: identifier, `name`, `searchTerm`. -/
def fuelTypes : List (String × String × String) :=
  [("gasolina", "Gasolina Comum", "gasolina comum"),
   ("gasolina_aditivada", "Gasolina Aditivada", "gasolina aditivada"),
   ("etanol", "Etanol", "etanol"),
   ("diesel", "Diesel", "diesel"),
   ("gnv", "GNV", "gnv")]

/-- The table `config.cities`. -/
def cities : List (String × ScraperService.Coordinates) :=
  [("salvador", ⟨-12.9714, -38.5014⟩),
   ("feira de santana", ⟨-12.2667, -38.9667⟩),
   ("vitoria da conquista", ⟨-14.8611, -40.8442⟩),
   ("camaçari", ⟨-12.6996, -38.3263⟩),
   ("itabuna", ⟨-14.7856, -39.2803⟩),
   ("juazeiro", ⟨-9.4117, -40.5089⟩),
   ("lauro de freitas", ⟨-12.8978, -38.3269⟩),
   ("ilhéus", ⟨-14.7933, -39.0465⟩),
   ("jequié", ⟨-13.8511, -40.0828⟩),
   ("teixeira de freitas", ⟨-17.5399, -39.7428⟩),
   ("barreiras", ⟨-12.1522, -44.9976⟩),
   ("alagoinhas", ⟨-12.1353, -38.4208⟩),
   ("porto seguro", ⟨-16.4497, -39.0647⟩),
   ("simões filho", ⟨-12.7866, -38.4029⟩),
   ("paulo afonso", ⟨-9.3983, -38.2142⟩),
   ("eunápolis", ⟨-16.3717, -39.5839⟩),
   ("santo antônio de jesus", ⟨-12.9683, -39.2586⟩),
   ("valença", ⟨-13.3669, -39.073⟩),
   ("candeias", ⟨-12.6717, -38.5472⟩),
   ("guanambi", ⟨-14.2231, -42.7799⟩)]

end Config

namespace GeocodingService

/-! ## services/geocoding.js -/

/-- The effect of `normalize('NFD')` followed by the removal of the combining marks
U+0300 to U+036F on one character: a combining mark disappears, an accented letter of
Latin-1 becomes its base letter, any other character is kept. -/
def stripAccentChar (c : Char) : List Char :=
  let n := c.toNat
  if 0x300 ≤ n ∧ n ≤ 0x36F then []
  else if 0xC0 ≤ n ∧ n ≤ 0xC5 then ['A']
  else if n = 0xC7 then ['C']
  else if 0xC8 ≤ n ∧ n ≤ 0xCB then ['E']
  else if 0xCC ≤ n ∧ n ≤ 0xCF then ['I']
  else if n = 0xD1 then ['N']
  else if 0xD2 ≤ n ∧ n ≤ 0xD6 then ['O']
  else if 0xD9 ≤ n ∧ n ≤ 0xDC then ['U']
  else if n = 0xDD then ['Y']
  else if 0xE0 ≤ n ∧ n ≤ 0xE5 then ['a']
  else if n = 0xE7 then ['c']
  else if 0xE8 ≤ n ∧ n ≤ 0xEB then ['e']
  else if 0xEC ≤ n ∧ n ≤ 0xEF then ['i']
  else if n = 0xF1 then ['n']
  else if 0xF2 ≤ n ∧ n ≤ 0xF6 then ['o']
  else if 0xF9 ≤ n ∧ n ≤ 0xFC then ['u']
  else if n = 0xFD ∨ n = 0xFF then ['y']
  else [c]

/-- The expression `s.normalize('NFD').replace(/[\u0300-\u036f]/g, '')`. -/
def stripAccents (s : String) : String :=
  String.mk (s.data.flatMap stripAccentChar)

/-- The value `normalizedCity` of a query, computed with the lower-casing and the
decomposition of the letters of ASCII and Latin-1 and with the removal of the combining
marks U+0300 to U+036F.  A letter outside Latin-1 is kept as it is; for such queries the
expression of the runtime is the parameter of `getCityCoordinatesWith`. -/
def normalizeCity (city : String) : String :=
  stripAccents (String.mk (ScraperService.toLowerCase city.data))

/-- The test of the approximate search for one table city:
`normalizedCityName.includes(normalizedCity) || normalizedCity.includes(normalizedCityName)`. -/
def matchesCity (normalizedCity cityName : String) : Bool :=
  ScraperService.includes (stripAccents cityName).data normalizedCity.data ||
  ScraperService.includes normalizedCity.data (stripAccents cityName).data

/-- The body of `getCityCoordinates` once the name is normalized: the exact property read,
then the approximate search through the table in the order of its entries, then the
entry of Salvador. -/
def lookupNormalizedCity (normalizedCity : String) :
    Config.Property ScraperService.Coordinates :=
  match Config.readProperty Config.cities normalizedCity with
  | Config.Property.own c => Config.Property.own c
  | Config.Property.inherited n => Config.Property.inherited n
  | Config.Property.undefined =>
    match Config.cities.find? (fun e => matchesCity normalizedCity e.1) with
    | some e => Config.Property.own e.2
    | none => Config.readProperty Config.cities "salvador"

/-- Method `getCityCoordinates(city, state)`: the returned value, with the text functions
of the runtime as a parameter: `normalize city` is the value of the expression
`city.toLowerCase().normalize('NFD').replace(/[\u0300-\u036f]/g, '')`.  The names of the
table are written in Latin-1, where `stripAccents` is the expression
`cityName.normalize('NFD').replace(/[\u0300-\u036f]/g, '')` exactly. -/
def getCityCoordinatesWith (normalize : String → String) (city _state : String) :
    Config.Property ScraperService.Coordinates :=
  lookupNormalizedCity (normalize city)

/-- Method `getCityCoordinates(city, state)`: the returned value for a query written with
the letters that `normalizeCity` covers. -/
def getCityCoordinates (city state : String) : Config.Property ScraperService.Coordinates :=
  getCityCoordinatesWith normalizeCity city state

end GeocodingService

namespace FuelController

/-! ## api/controllers/fuel.js -/

/-- The object `req.query`: each parameter is a text or absent. -/
structure Query where
  cep : Option String
  city : Option String
  state : Option String
  type : Option String
  radius : Option String
deriving DecidableEq

/-- What the controller sends: `res.status(status).json({ success: false, error })`, or
`res.json(result)` with the envelope of the scraper service. -/
inductive Response (μ : Type) where
  | failure (status : Nat) (error : String)
  | result (envelope : ScraperService.Envelope μ)
deriving DecidableEq

/-- The expression `param || fallback`: an absent or empty text gives the fallback. -/
def orDefault (param : Option String) (fallback : String) : String :=
  match param with
  | none => fallback
  | some s => if s = "" then fallback else s

/-- The test `/^\d{5}-?\d{3}$/.test(cep)`. -/
def isValidCep (cep : List Char) : Bool :=
  (cep.take 5).length == 5 && (cep.take 5).all ScraperService.isDigit &&
  (match cep.drop 5 with
   | '-' :: rest => rest.length == 3 && rest.all ScraperService.isDigit
   | rest => rest.length == 3 && rest.all ScraperService.isDigit)

/-- The call `cep.replace("-", "")`: the first hyphen is removed. -/
def removeHyphen : List Char → List Char
  | [] => []
  | c :: s => if c = '-' then s else c :: removeHyphen s

/-- The function `parseInt(text, 10)`; `none` stands for `NaN`.  The value is the exact
integer that the digits write, which is the number of the runtime for every text of at
most fifteen digits. -/
def parseInt (text : List Char) : Option Int :=
  let s := text.dropWhile ScraperService.isWhiteSpace
  match s with
  | '-' :: t =>
    if t.takeWhile ScraperService.isDigit = [] then none
    else some (-(ScraperService.digitsToNat (t.takeWhile ScraperService.isDigit) : Int))
  | '+' :: t =>
    if t.takeWhile ScraperService.isDigit = [] then none
    else some (ScraperService.digitsToNat (t.takeWhile ScraperService.isDigit) : Int)
  | t =>
    if t.takeWhile ScraperService.isDigit = [] then none
    else some (ScraperService.digitsToNat (t.takeWhile ScraperService.isDigit) : Int)

/-- The expression `parseInt(radiusParam, 10) || 5`. -/
def radiusOf (radiusParam : String) : Int :=
  match parseInt radiusParam.data with
  | none => 5
  | some n => if n = 0 then 5 else n

/-- The value `fuelType` of a request. -/
def fuelTypeOf (q : Query) : String :=
  String.mk (ScraperService.toLowerCase (orDefault q.type "gasolina").data)

/-- The message sent for an unsupported fuel type. -/
def unsupportedFuelMessage : String :=
  "Tipo de combustível inválido. Valores suportados: " ++
    ", ".intercalate (Config.fuelTypes.map Prod.fst)

/-- The property `length` of a text: the number of its UTF-16 code units (two for a
character beyond U+FFFF). -/
def utf16Length (s : String) : Nat :=
  (s.data.map fun c => if 0x10000 ≤ c.toNat then 2 else 1).sum

/-- The text sent with the status 500: `error.message || "Erro desconhecido"` after the
words of the controller. -/
def internalErrorMessage (error : ScraperService.JsError) : String :=
  "Erro interno do servidor: " ++
    (if error.message = "" then "Erro desconhecido" else error.message)

/-- The controller `getFuelStationsByCep(req, res)`; `geocoding` is what the postal-code
lookup of the geocoding service returns or throws.  The outer `catch` of the controller
(status 500) is reached when the call of the scraper service rejects. -/
def getFuelStationsByCep (q : Query)
    (geocoding : ScraperService.Completion ScraperService.Coordinates)
    (env : ScraperService.Env) (w : ScraperService.World) :
    Response ScraperService.CepMeta × ScraperService.World :=
  if orDefault q.cep "" = "" ∨ isValidCep (orDefault q.cep "").data = false then
    (Response.failure 400 "CEP inválido. Formato esperado: 00000-000 ou 00000000", w)
  else
    match Config.readProperty Config.fuelTypes (fuelTypeOf q) with
    | Config.Property.undefined => (Response.failure 400 unsupportedFuelMessage, w)
    | _ =>
      match ScraperService.getFuelStationsByCep
        (String.mk (removeHyphen (orDefault q.cep "").data)) (fuelTypeOf q)
        (radiusOf (orDefault q.radius "5")) geocoding env w with
      | (ScraperService.Outcome.ok result, w1) => (Response.result result, w1)
      | (ScraperService.Outcome.error error, w1) =>
        (Response.failure 500 (internalErrorMessage error), w1)

/-- The controller `getFuelStationsByCity(req, res)`; `geocoding` is what the city lookup
of the geocoding service returns or throws.  The outer `catch` of the controller
(status 500) is reached when the call of the scraper service rejects. -/
def getFuelStationsByCity (q : Query)
    (geocoding : ScraperService.Completion ScraperService.Coordinates)
    (env : ScraperService.Env) (w : ScraperService.World) :
    Response ScraperService.CityMeta × ScraperService.World :=
  if orDefault q.city "" = "" ∨ utf16Length (orDefault q.city "") < 3 then
    (Response.failure 400 "Nome de cidade inválido. Deve conter pelo menos 3 caracteres.", w)
  else
    match Config.readProperty Config.fuelTypes (fuelTypeOf q) with
    | Config.Property.undefined => (Response.failure 400 unsupportedFuelMessage, w)
    | _ =>
      match ScraperService.getFuelStationsByCity (orDefault q.city "")
        (orDefault q.state "BA") (fuelTypeOf q) (radiusOf (orDefault q.radius "5"))
        geocoding env w with
      | (ScraperService.Outcome.ok result, w1) => (Response.result result, w1)
      | (ScraperService.Outcome.error error, w1) =>
        (Response.failure 500 (internalErrorMessage error), w1)

/-- A request for a valid postal code and a valid city with the type `Constructor`. -/
def inheritedTypeQuery : Query :=
  { cep := some "40000-000", city := some "Salvador", state := none,
    type := some "Constructor", radius := none }

end FuelController

namespace BrowserManager

/-! ## utils/browser.js: the launch guard

JavaScript runs one callback at a time: a call of the method, and the callback that runs
when a launch settles, are steps that do not interleave with each other.  A launch and
the browser it produces are named by the rank of the launch. -/

/-- The fields `browser`, `isInitializing` and `initPromise` of the manager, with two
counters kept for the statement of properties: the number of launches started, and the
launches that have not settled yet. -/
structure State where
  browser : Option Nat
  isInitializing : Bool
  initPromise : Option Nat
  launches : Nat
  pending : List Nat
deriving DecidableEq

/-- The state built by the constructor. -/
def new : State :=
  { browser := none, isInitializing := false, initPromise := none, launches := 0, pending := [] }

/-- What a call of the method gives its caller: the existing browser, the stored promise
(of the launch with that rank), or a synchronously thrown error. -/
inductive Reply where
  | browser (b : Nat)
  | promise (launch : Option Nat)
  | thrown
deriving DecidableEq

/-- The method of `BrowserManager` that starts the browser; `launchThrows` tells whether
`puppeteer.launch` throws at once instead of returning a promise. -/
def initializeCall (s : State) (launchThrows : Bool) : Reply × State :=
  match s.browser with
  | some b => (Reply.browser b, s)
  | none =>
    if s.isInitializing then (Reply.promise s.initPromise, s)
    else if launchThrows then (Reply.thrown, { s with isInitializing := false })
    else
      (Reply.promise (some s.launches),
        { s with isInitializing := true, initPromise := some s.launches,
                 launches := s.launches + 1, pending := s.launches :: s.pending })

/-- The `then` callback of a launch: runs when the pending launch is fulfilled. -/
def launchFulfilled (s : State) (launch : Nat) : State :=
  if launch ∈ s.pending then
    { s with browser := some launch, isInitializing := false, pending := s.pending.erase launch }
  else s

/-- The `catch` callback of a launch: runs when the pending launch is rejected. -/
def launchRejected (s : State) (launch : Nat) : State :=
  if launch ∈ s.pending then
    { s with isInitializing := false, pending := s.pending.erase launch }
  else s

/-- One step of an interleaving: a call of the method, or the settling of a launch. -/
inductive Step where
  | call (launchThrows : Bool)
  | fulfilled (launch : Nat)
  | rejected (launch : Nat)
deriving DecidableEq

/-- The state after one step. -/
def step (s : State) : Step → State
  | Step.call launchThrows => (initializeCall s launchThrows).2
  | Step.fulfilled launch => launchFulfilled s launch
  | Step.rejected launch => launchRejected s launch

/-- The state after a sequence of steps. -/
def run (s : State) (steps : List Step) : State := steps.foldl step s

/-- The guard: no launch is pending and the flag is down, or exactly one launch is
pending, the flag is up, the stored promise is that of this launch and no browser exists. -/
def Guarded (s : State) : Prop :=
  (s.pending = [] ∧ s.isInitializing = false) ∨
  (∃ l, s.pending = [l] ∧ s.isInitializing = true ∧ s.initPromise = some l ∧ s.browser = none)

end BrowserManager

namespace CacheService

/-! ### Properties of the cache -/

theorem mapGet_mapSet_self {α : Type} (m : List (String × Item α)) (key : String) (it : Item α) :
    mapGet (mapSet m key it) key = some it := by
  induction m with
  | nil => simp [mapSet, mapGet]
  | cons hd tl ih =>
    obtain ⟨k, old⟩ := hd
    by_cases h : k = key
    · simp [mapSet, mapGet, h]
    · simp [mapSet, mapGet, h, ih]

theorem localeCompare_neg_iff (a b : String) :
    localeCompare a b < 0 ↔ composeCanonical a.data < composeCanonical b.data := by
  unfold localeCompare
  simp only []
  split_ifs with h1 h2
  · exact iff_of_true (by norm_num) h1
  · exact iff_of_false (by norm_num) h1
  · exact iff_of_false (by norm_num) h1

theorem localeCompare_pos_iff (a b : String) :
    0 < localeCompare a b ↔ composeCanonical b.data < composeCanonical a.data := by
  unfold localeCompare
  simp only []
  split_ifs with h1 h2
  · exact iff_of_false (by norm_num) (not_lt.mpr h1.le)
  · exact iff_of_false (by norm_num) (by rw [h2]; exact lt_irrefl _)
  · exact iff_of_true one_pos (lt_of_le_of_ne (not_lt.mp h1) (Ne.symm h2))

theorem localeCompare_nonpos_iff (a b : String) :
    localeCompare a b ≤ 0 ↔ composeCanonical a.data ≤ composeCanonical b.data := by
  rw [← not_lt, localeCompare_pos_iff, not_lt]

/-- Two entry lists that are sorted by a comparator separating their names, and that
are permutations of each other, are equal. -/
theorem sortEntries_eq_of_perm (cmp : String → String → Int)
    (hsign : ∀ a b, cmp a b < 0 ↔ 0 < cmp b a)
    (htrans : ∀ a b c, cmp a b ≤ 0 → cmp b c ≤ 0 → cmp a c ≤ 0)
    (p q : List (String × String)) (hperm : p.Perm q)
    (hnodup : (p.map Prod.fst).Nodup)
    (hsep : ∀ a ∈ p, ∀ b ∈ p, cmp a.1 b.1 = 0 → a.1 = b.1) :
    sortEntries cmp p = sortEntries cmp q := by
  have htotal : ∀ a b, cmp a b ≤ 0 ∨ cmp b a ≤ 0 := by
    intro a b
    by_cases h : cmp a b ≤ 0
    · exact Or.inl h
    · right
      have h2 : 0 < cmp a b := not_le.mp h
      have := (hsign b a).mpr h2
      omega
  haveI : IsTotal (String × String) (fun a b => cmp a.1 b.1 ≤ 0) := ⟨fun a b => htotal a.1 b.1⟩
  haveI : IsTrans (String × String) (fun a b => cmp a.1 b.1 ≤ 0) :=
    ⟨fun a b c => htrans a.1 b.1 c.1⟩
  have hp1 : (sortEntries cmp p).Perm p := List.perm_insertionSort _ p
  have hp2 : (sortEntries cmp q).Perm q := List.perm_insertionSort _ q
  have hs1 : (sortEntries cmp p).Pairwise (fun a b => cmp a.1 b.1 ≤ 0) :=
    List.sorted_insertionSort _ p
  have hs2 : (sortEntries cmp q).Pairwise (fun a b => cmp a.1 b.1 ≤ 0) :=
    List.sorted_insertionSort _ q
  refine List.Perm.eq_of_sorted ?_ hs1 hs2 (hp1.trans (hperm.trans hp2.symm))
  intro a b ha hb hab hba
  have hap : a ∈ p := hp1.subset ha
  have hbp : b ∈ p := hperm.symm.subset (hp2.subset hb)
  have h0 : cmp a.1 b.1 = 0 := by
    rcases lt_or_eq_of_le hab with h | h
    · have := (hsign a.1 b.1).mp h
      omega
    · exact h
  have hk : a.1 = b.1 := hsep a hap b hbp h0
  exact (List.inj_on_of_nodup_map hnodup) hap hbp hk

/-- C1 (counterexample).  The names U+00E9 and `e` followed by U+0301 are different
property names that the comparator reports as equal, so the stable sort leaves them
in insertion order: two mappings with the same name/value pairs get different keys. -/
theorem generateKey_insertion_order_counterexample :
    (["\u00e9", "e\u0301"] : List String).Nodup ∧
    List.Perm [("\u00e9", "1"), ("e\u0301", "2")] [("e\u0301", "2"), ("\u00e9", "1")] ∧
    generateKey localeCompare "p" [("\u00e9", "1"), ("e\u0301", "2")] ≠
      generateKey localeCompare "p" [("e\u0301", "2"), ("\u00e9", "1")] :=
  ⟨by decide, List.Perm.swap _ _ _, by decide⟩

/-- C1 (amended).  For every consistent comparator, every prefix and every two entry
lists holding the same name/value pairs (one is a permutation of the other, names
distinct), if no two names of the mapping compare as 0 then `generateKey` returns the
same string for both. -/
theorem generateKey_order_independent (cmp : String → String → Int)
    (hsign : ∀ a b, cmp a b < 0 ↔ 0 < cmp b a)
    (htrans : ∀ a b c, cmp a b ≤ 0 → cmp b c ≤ 0 → cmp a c ≤ 0)
    (pfx : String) (p q : List (String × String)) (hperm : p.Perm q)
    (hnodup : (p.map Prod.fst).Nodup)
    (hsep : ∀ a ∈ p, ∀ b ∈ p, cmp a.1 b.1 = 0 → a.1 = b.1) :
    generateKey cmp pfx p = generateKey cmp pfx q := by
  unfold generateKey
  rw [sortEntries_eq_of_perm cmp hsign htrans p q hperm hnodup hsep]

/-- C1 (witness).  The four parameters of a coordinates query, in two insertion orders. -/
theorem generateKey_order_independent_witness :
    generateKey localeCompare "coordinates"
        [("lat", "-12.9714"), ("lng", "-38.5014"), ("type", "etanol"), ("radius", "5")] =
      generateKey localeCompare "coordinates"
        [("radius", "5"), ("type", "etanol"), ("lng", "-38.5014"), ("lat", "-12.9714")] :=
  generateKey_order_independent localeCompare
    (fun a b => by rw [localeCompare_neg_iff, localeCompare_pos_iff])
    (fun a b c hab hbc => by
      rw [localeCompare_nonpos_iff] at *
      exact le_trans hab hbc)
    "coordinates" _ _ (by decide) (by decide) (by decide)

/-- C2 (counterexample).  An entry stored at instant 0 with a TTL of one second is still
returned at instant 1000, which is at (not before) the expiry instant. -/
theorem get_at_expiry_instant_counterexample :
    (0 : Int) + 1 * 1000 ≤ 1000 ∧
    (get (set (new Nat) 0 "k" 7 1) 1000 "k").1 = some 7 ∧
    (get (set (new Nat) 0 "k" 7 1) 1000 "k").1 ≠ none := by
  decide

/-- C2 (amended).  For an enabled cache and an entry stored by `set(key, value, ttl)` at
instant `T`, `get(key)` returns the stored value at every instant up to and including
`T + ttl*1000`, and reports absent at every instant after `T + ttl*1000`. -/
theorem get_after_set_ttl {α : Type} (s : State α) (henabled : s.enabled = true)
    (T t ttl : Int) (key : String) (value : α) :
    (t ≤ T + ttl * 1000 → (get (set s T key value ttl) t key).1 = some value) ∧
    (T + ttl * 1000 < t → (get (set s T key value ttl) t key).1 = none) := by
  constructor
  · intro h
    simp [get, set, henabled, mapGet_mapSet_self, not_lt.mpr h]
  · intro h
    simp [get, set, henabled, mapGet_mapSet_self, h]

/-- C2 (witness).  A one-hour entry stored at instant 5: present at 3600005, absent
at 3600006. -/
theorem get_after_set_ttl_witness :
    (get (set (new Nat) 5 "k" 7 3600) 3600005 "k").1 = some 7 ∧
    (get (set (new Nat) 5 "k" 7 3600) 3600006 "k").1 = none :=
  ⟨(get_after_set_ttl (new Nat) rfl 5 3600005 3600 "k" 7).1 (by decide),
   (get_after_set_ttl (new Nat) rfl 5 3600006 3600 "k" 7).2 (by decide)⟩

theorem runOps_disabled {α : Type} (ops : List (Op α)) (s : State α) (h : s.enabled = false) :
    (∀ v ∈ (runOps s ops).1, v = none) ∧ (runOps s ops).2 = s := by
  induction ops with
  | nil => simp [runOps]
  | cons op rest ih =>
    cases op with
    | get now key =>
      have hg : get s now key = (none, s) := by simp [get, h]
      simp only [runOps, hg]
      exact ⟨by simpa using ih.1, ih.2⟩
    | set now key value ttl =>
      have hs : set s now key value ttl = s := by simp [set, h]
      simp only [runOps, hs]
      exact ih

/-- C3.  For every cache state: after `setEnabled(false)` every `get` of any sequence of
`get` and `set` calls returns `null` and the stored map is left unchanged; after a
following `setEnabled(true)`, a `get` of an entry that was stored before disabling and
whose expiry instant has not passed returns that entry's value. -/
theorem disable_hides_without_purging {α : Type} (s : State α) (ops : List (Op α)) :
    (∀ v ∈ (runOps (setEnabled s false) ops).1, v = none) ∧
    (runOps (setEnabled s false) ops).2.cache = s.cache ∧
    (∀ (key : String) (item : Item α) (now : Int),
      mapGet s.cache key = some item → now ≤ item.expiry →
      (get (setEnabled (runOps (setEnabled s false) ops).2 true) now key).1 = some item.value) := by
  have h := runOps_disabled ops (setEnabled s false) rfl
  refine ⟨h.1, by rw [h.2]; rfl, ?_⟩
  intro key item now hstored hlive
  rw [h.2]
  simp [get, setEnabled, hstored, not_lt.mpr hlive]

/-- C3 (witness).  An entry stored at instant 0 for ten seconds survives a disabled
phase in which it is read and overwritten, and is returned after re-enabling. -/
theorem disable_hides_without_purging_witness :
    (get (setEnabled (runOps (setEnabled (set (new Nat) 0 "k" 7 10) false)
        [Op.get 1 "k", Op.set 2 "k" 9 10, Op.get 3 "k"]).2 true) 4 "k").1 = some 7 :=
  (disable_hides_without_purging (set (new Nat) 0 "k" 7 10)
    [Op.get 1 "k", Op.set 2 "k" 9 10, Op.get 3 "k"]).2.2 "k" ⟨7, 10000⟩ 4 (by decide) (by decide)

end CacheService

namespace ScraperService

set_option maxRecDepth 100000

/-! ### Extraction -/

/-- C4.  On a page without card elements whose markup lists a price of 9,00 before a
price of 1,50, `extractStationsFromPage` returns the two records of the manual
extraction in document order: the returned non-empty sequence is not sorted by price. -/
theorem extractStationsFromPage_manual_unsorted :
    (extractStationsFromPage "gasolina" (staticEnv [] descendingMarkup) World.fresh).1 =
      Outcome.ok
        [{ name := "Posto A", address := "Endereço não disponível", city := "Salvador",
           state := "BA", price := JsNumber.value ⟨900, 2⟩, fuelType := "gasolina" },
         { name := "Posto B", address := "Endereço não disponível", city := "Salvador",
           state := "BA", price := JsNumber.value ⟨150, 2⟩, fuelType := "gasolina" }] ∧
    ¬ SortedByPrice
        [{ name := "Posto A", address := "Endereço não disponível", city := "Salvador",
           state := "BA", price := JsNumber.value ⟨900, 2⟩, fuelType := "gasolina" },
         { name := "Posto B", address := "Endereço não disponível", city := "Salvador",
           state := "BA", price := JsNumber.value ⟨150, 2⟩, fuelType := "gasolina" }] := by
  refine ⟨by decide!, ?_⟩
  simp only [SortedByPrice, List.pairwise_cons, List.mem_singleton, forall_eq, JsNumber.le,
    Decimal.toRat]
  norm_num

/-- C5.  On a results page whose only card is a shop named `Mercado Bom` (a name with
none of the station keywords) with a visible price, the structured pass discards the card,
and the manual extraction then returns a record with that name and price. -/
theorem extractStationsFromPage_returns_non_station :
    isGasStation "Mercado Bom".data = false ∧
    evaluateCards "gasolina" [shopCard] = [] ∧
    (extractStationsFromPage "gasolina" (staticEnv [shopCard] shopMarkup) World.fresh).1 =
      Outcome.ok
        [{ name := "Mercado Bom", address := "Endereço não disponível", city := "Salvador",
           state := "BA", price := JsNumber.value ⟨500, 2⟩, fuelType := "gasolina" }] := by
  refine ⟨by decide!, by decide!, by decide!⟩

/-! ### The envelope -/

/-- C6 (counterexample).  When the geocoding collaborator throws `null`, the read
`error.message` of the `catch` handler throws a `TypeError`: both methods reject with it
and return no envelope. -/
theorem thrown_null_rejects_counterexample :
    (getFuelStationsByCep "40000000" "gasolina" 5 (Completion.thrown Thrown.null)
        landingTimeoutEnv World.fresh).1 =
      Outcome.error ⟨"Cannot read properties of null (reading 'message')"⟩ ∧
    (getFuelStationsByCity "Salvador" "BA" "gasolina" 5 (Completion.thrown Thrown.null)
        landingTimeoutEnv World.fresh).1 =
      Outcome.error ⟨"Cannot read properties of null (reading 'message')"⟩ ∧
    (∀ envelope, (getFuelStationsByCep "40000000" "gasolina" 5 (Completion.thrown Thrown.null)
        landingTimeoutEnv World.fresh).1 ≠ Outcome.ok envelope) ∧
    (∀ envelope, (getFuelStationsByCity "Salvador" "BA" "gasolina" 5
        (Completion.thrown Thrown.null) landingTimeoutEnv World.fresh).1 ≠
      Outcome.ok envelope) :=
  ⟨rfl, rfl, fun _ h => Outcome.noConfusion h, fun _ h => Outcome.noConfusion h⟩

/-- C6 (amended).  `getFuelStationsByCep` and `getFuelStationsByCity` return an envelope
for every behaviour of the geocoding collaborator, of the browser and of the extraction in
which the collaborator throws neither `null` nor `undefined`.  If the geocoding call or
`getFuelStationsByCoordinates` threw, the envelope has `success = false`, no data,
`total = 0`, zero coordinates, the radius and query fields of the caller and the message of
the thrown value; otherwise it has `success = true`, the returned records, their number as
`total`, and no error. -/
theorem envelope_on_every_outcome (cep city state fuelType : String) (radius : Int)
    (geocoding : Completion Coordinates) (env : Env) (w : World)
    (hnull : geocoding ≠ Completion.thrown Thrown.null)
    (hundefined : geocoding ≠ Completion.thrown Thrown.undefined) :
    ((∃ message : Option String,
        (geocoding = Completion.thrown (Thrown.value message) ∨
          ∃ c error, geocoding = Completion.returned c ∧
            (getFuelStationsByCoordinates c fuelType radius env w).1 = Outcome.error error ∧
            message = some error.message) ∧
        (getFuelStationsByCep cep fuelType radius geocoding env w).1 =
          Outcome.ok
            { success := false, data := [],
              meta := { total := 0, radius := radius, cep := cep, coordinates := ⟨0, 0⟩ },
              error := message } ∧
        (getFuelStationsByCity city state fuelType radius geocoding env w).1 =
          Outcome.ok
            { success := false, data := [],
              meta := { total := 0, radius := radius, city := city, state := state,
                        coordinates := ⟨0, 0⟩ },
              error := message }) ∨
     (∃ c stations,
        geocoding = Completion.returned c ∧
        (getFuelStationsByCoordinates c fuelType radius env w).1 = Outcome.ok stations ∧
        (getFuelStationsByCep cep fuelType radius geocoding env w).1 =
          Outcome.ok
            { success := true, data := stations,
              meta := { total := stations.length, radius := radius, cep := cep,
                        coordinates := c },
              error := none } ∧
        (getFuelStationsByCity city state fuelType radius geocoding env w).1 =
          Outcome.ok
            { success := true, data := stations,
              meta := { total := stations.length, radius := radius, city := city,
                        state := state, coordinates := c },
              error := none })) := by
  cases geocoding with
  | thrown v =>
    cases v with
    | null => exact absurd rfl hnull
    | undefined => exact absurd rfl hundefined
    | value message =>
      left
      exact ⟨message, Or.inl rfl, rfl, rfl⟩
  | returned c =>
    cases h : getFuelStationsByCoordinates c fuelType radius env w with
    | mk r w1 =>
      cases r with
      | ok stations =>
        right
        refine ⟨c, stations, rfl, by rw [h], ?_, ?_⟩
        · simp [getFuelStationsByCep, h]
        · simp [getFuelStationsByCity, h]
      | error e =>
        left
        refine ⟨some e.message, Or.inr ⟨c, e, rfl, by rw [h], rfl⟩, ?_, ?_⟩
        · simp [getFuelStationsByCep, h]
        · simp [getFuelStationsByCity, h]

/-- C6 (witness).  A geocoding collaborator that throws an `Error` with the message
`CEP não encontrado` gives the failure envelope with that message. -/
theorem envelope_on_every_outcome_witness :
    (getFuelStationsByCep "40000000" "gasolina" 5
        (Completion.thrown (Thrown.value (some "CEP não encontrado")))
        landingTimeoutEnv World.fresh).1 =
      Outcome.ok
        { success := false, data := [],
          meta := { total := 0, radius := 5, cep := "40000000", coordinates := ⟨0, 0⟩ },
          error := some "CEP não encontrado" } := by
  rcases envelope_on_every_outcome "40000000" "Salvador" "BA" "gasolina" 5
      (Completion.thrown (Thrown.value (some "CEP não encontrado")))
      landingTimeoutEnv World.fresh (by simp) (by simp) with
    ⟨message, hcause, h, _⟩ | ⟨c, _, hc, _⟩
  · rcases hcause with hm | ⟨c, _, hc, _⟩
    · simp only [Completion.thrown.injEq, Thrown.value.injEq] at hm
      rw [h, ← hm]
    · simp at hc
  · simp at hc

/-! ### Reasoning about runs -/

theorem bind_eq {α β : Type} (m : Run α) (f : α → Run β) : (m >>= f) = Run.andThen m f := rfl

theorem pure_eq {α : Type} (a : α) : (pure a : Run α) = Run.ret a := rfl

theorem emits_ret {α : Type} (P : Event → Prop) (a : α) : Emits P (Run.ret a) :=
  fun _ _ => ⟨[], by simp [Run.ret], by simp⟩

theorem emits_throw {α : Type} (P : Event → Prop) (e : JsError) :
    Emits P (Run.throw e : Run α) :=
  fun _ _ => ⟨[], by simp [Run.throw], by simp⟩

theorem emits_andThen {α β : Type} {P : Event → Prop} {m : Run α} {f : α → Run β}
    (hm : Emits P m) (hf : ∀ a, Emits P (f a)) : Emits P (Run.andThen m f) := by
  intro env w
  obtain ⟨es1, h1, p1⟩ := hm env w
  unfold Run.andThen
  cases hr : m env w with
  | mk r w1 =>
    rw [hr] at h1
    cases r with
    | ok a =>
      obtain ⟨es2, h2, p2⟩ := hf a env w1
      refine ⟨es1 ++ es2, ?_, ?_⟩
      · simp only [h2]
        simp only [] at h1
        rw [h1, List.append_assoc]
      · intro e he
        rcases List.mem_append.mp he with h | h
        · exact p1 e h
        · exact p2 e h
    | error e => exact ⟨es1, h1, p1⟩

theorem emits_tryCatch {α : Type} {P : Event → Prop} {m : Run α} {h : JsError → Run α}
    (hm : Emits P m) (hh : ∀ e, Emits P (h e)) : Emits P (Run.tryCatch m h) := by
  intro env w
  obtain ⟨es1, h1, p1⟩ := hm env w
  unfold Run.tryCatch
  cases hr : m env w with
  | mk r w1 =>
    rw [hr] at h1
    cases r with
    | ok a => exact ⟨es1, h1, p1⟩
    | error e =>
      obtain ⟨es2, h2, p2⟩ := hh e env w1
      refine ⟨es1 ++ es2, ?_, ?_⟩
      · simp only [h2]
        simp only [] at h1
        rw [h1, List.append_assoc]
      · intro e he
        rcases List.mem_append.mp he with h | h
        · exact p1 e h
        · exact p2 e h

theorem emits_perform {P : Event → Prop} (a : Action) (h : ∀ r, P (Event.act a r)) :
    Emits P (perform a) :=
  fun env w => ⟨[Event.act a (env.act w.log a)], rfl, by simpa using h _⟩

theorem emits_query {P : Event → Prop} (selector : String)
    (h : ∀ r, P (Event.query selector r)) : Emits P (query selector) :=
  fun env w => ⟨[Event.query selector (env.query w.log selector)], rfl, by simpa using h _⟩

theorem emits_pageCards {P : Event → Prop} (h : ∀ r, P (Event.evaluateCards r)) :
    Emits P pageCards :=
  fun env w => ⟨[Event.evaluateCards (env.evaluateCards w.log)], rfl, by simpa using h _⟩

theorem emits_pageContent {P : Event → Prop} (h : ∀ r, P (Event.content r)) :
    Emits P pageContent :=
  fun env w => ⟨[Event.content (env.content w.log)], rfl, by simpa using h _⟩

theorem emits_configCacheTtl (P : Event → Prop) : Emits P configCacheTtl :=
  fun _ _ => ⟨[], by simp [configCacheTtl], by simp⟩

theorem emits_cacheSet {P : Event → Prop} (key : String) (value : List Station) (ttl : Int)
    (h : ∀ t, P (Event.dateNow t)) : Emits P (cacheSet key value ttl) := by
  intro env w
  unfold cacheSet
  split
  · exact ⟨[Event.dateNow (env.now w.log)], rfl, by simpa using h _⟩
  · exact ⟨[], by simp, by simp⟩

theorem emits_trySelectors {P : Event → Prop} (hq : ∀ s r, P (Event.query s r))
    (hc : ∀ s r, P (Event.act (Action.click s) r)) (selectors : List String) :
    Emits P (trySelectors selectors) := by
  induction selectors with
  | nil => exact emits_ret P false
  | cons selector rest ih =>
    intro env w
    obtain ⟨es1, h1, p1⟩ := emits_query selector (hq selector) env w
    unfold trySelectors
    cases hr : query selector env w with
    | mk r w1 =>
      rw [hr] at h1
      simp only [] at h1
      have hrest : ∀ w2 es, w2.log = w.log ++ es → (∀ e ∈ es, P e) →
          ∃ es3, (trySelectors rest env w2).2.log = w.log ++ es3 ∧ ∀ e ∈ es3, P e := by
        intro w2 es hw2 pes
        obtain ⟨es2, h2, p2⟩ := ih env w2
        refine ⟨es ++ es2, by rw [h2, hw2, List.append_assoc], ?_⟩
        intro e he
        rcases List.mem_append.mp he with h | h
        · exact pes e h
        · exact p2 e h
      cases r with
      | error e => exact hrest w1 es1 h1 p1
      | ok b =>
        cases b with
        | false => exact hrest w1 es1 h1 p1
        | true =>
          obtain ⟨es2, h2, p2⟩ := emits_perform (Action.click selector) (hc selector) env w1
          have p12 : ∀ e ∈ es1 ++ es2, P e := by
            intro e he
            rcases List.mem_append.mp he with h | h
            · exact p1 e h
            · exact p2 e h
          cases hc2 : perform (Action.click selector) env w1 with
          | mk r2 w2 =>
            rw [hc2] at h2
            simp only [] at h2
            have hw2 : w2.log = w.log ++ (es1 ++ es2) := by rw [h2, h1, List.append_assoc]
            cases r2 with
            | ok u =>
              simp only [hc2]
              exact ⟨es1 ++ es2, hw2, p12⟩
            | error e =>
              simp only [hc2]
              exact hrest w2 (es1 ++ es2) hw2 p12

theorem emits_ite {α : Type} {P : Event → Prop} (c : Prop) [Decidable c] {m n : Run α}
    (hm : Emits P m) (hn : Emits P n) : Emits P (if c then m else n) := by
  split
  · exact hm
  · exact hn

theorem emits_otherwise {P : Event → Prop} (found : Bool) {m : Run Unit}
    (hm : Emits P m) : Emits P (otherwise found m) := by
  unfold otherwise
  split
  · exact emits_ret _ _
  · exact hm

theorem emits_extractStationsFromPage {P : Event → Prop} (fuelType : String)
    (hc : ∀ r, P (Event.evaluateCards r)) (hh : ∀ r, P (Event.content r)) :
    Emits P (extractStationsFromPage fuelType) := by
  unfold extractStationsFromPage
  simp only [bind_eq, pure_eq]
  refine emits_tryCatch (emits_andThen (emits_pageCards hc) fun cards => ?_)
    (fun _ => emits_ret _ _)
  refine emits_ite _ (emits_andThen (emits_pageContent hh) fun html => ?_) (emits_ret _ _)
  exact emits_ite _ (emits_ret _ _) (emits_ret _ _)

theorem emits_getFuelStationsAlternative {P : Event → Prop} (coordinates : Coordinates)
    (fuelType : String) (radius : Int)
    (hc : ∀ r, P (Event.evaluateCards r)) (hh : ∀ r, P (Event.content r))
    (hg : ∀ r, P (Event.act (Action.goto (alternativeUrl coordinates radius)) r))
    (hw : ∀ r, P (Event.act (Action.waitForTimeout 3000) r)) :
    Emits P (getFuelStationsAlternative coordinates fuelType radius) := by
  unfold getFuelStationsAlternative
  simp only [bind_eq, pure_eq]
  refine emits_tryCatch ?_ (fun _ => emits_ret _ _)
  refine emits_andThen (emits_perform _ hg) fun _ => ?_
  refine emits_andThen (emits_perform _ hw) fun _ => ?_
  exact emits_andThen (emits_extractStationsFromPage fuelType hc hh) fun _ => emits_ret _ _

theorem emits_driveSearch {P : Event → Prop} (coordinates : Coordinates)
    (fuelType : String) (radius : Int)
    (hq : ∀ s r, P (Event.query s r))
    (ha : ∀ a r, a ≠ Action.close → P (Event.act a r)) :
    Emits P (driveSearch coordinates fuelType radius) := by
  have hp : ∀ a, a ≠ Action.close → Emits P (perform a) :=
    fun a hne => emits_perform a (fun r => ha a r hne)
  have hs : ∀ l, Emits P (trySelectors l) :=
    emits_trySelectors hq (fun s r => ha _ r (by simp))
  unfold driveSearch simulateHumanBehavior
  simp only [bind_eq, pure_eq]
  refine emits_andThen (hp _ (by simp)) fun _ => ?_
  refine emits_andThen (emits_andThen (hp _ (by simp)) fun _ => hp _ (by simp)) fun _ => ?_
  refine emits_andThen (hs _) fun _ => ?_
  refine emits_andThen (emits_otherwise _ (hp _ (by simp))) fun _ => ?_
  refine emits_andThen (hp _ (by simp)) fun _ => ?_
  refine emits_andThen (hs _) fun _ => ?_
  refine emits_andThen (emits_otherwise _ (hp _ (by simp))) fun _ => ?_
  refine emits_andThen (hp _ (by simp)) fun _ => ?_
  refine emits_andThen (hp _ (by simp)) fun _ => ?_
  refine emits_andThen (hs _) fun _ => ?_
  refine emits_andThen (emits_otherwise _ (hp _ (by simp))) fun _ => ?_
  exact hp _ (by simp)

theorem emits_searchOnPage {P : Event → Prop} (cacheKey : String) (coordinates : Coordinates)
    (fuelType : String) (radius : Int)
    (hq : ∀ s r, P (Event.query s r))
    (hc : ∀ r, P (Event.evaluateCards r)) (hh : ∀ r, P (Event.content r))
    (hd : ∀ t, P (Event.dateNow t))
    (ha : ∀ a r, a ≠ Action.close → P (Event.act a r)) :
    Emits P (searchOnPage cacheKey coordinates fuelType radius) := by
  unfold searchOnPage
  simp only [bind_eq, pure_eq]
  refine emits_andThen (emits_driveSearch coordinates fuelType radius hq ha) fun _ => ?_
  refine emits_andThen (emits_extractStationsFromPage fuelType hc hh) fun stations => ?_
  refine emits_ite _ ?_ ?_
  · exact emits_getFuelStationsAlternative coordinates fuelType radius hc hh
      (fun r => ha _ r (by simp)) (fun r => ha _ r (by simp))
  · refine emits_andThen (emits_configCacheTtl P) fun ttl => ?_
    exact emits_andThen (emits_cacheSet _ _ _ hd) fun _ => emits_ret _ _

theorem tryCatch_throw_world {α : Type} (m : Run α) (g : JsError → JsError) (env : Env)
    (w : World) : (Run.tryCatch m (fun e => Run.throw (g e)) env w).2 = (m env w).2 := by
  unfold Run.tryCatch Run.throw
  cases m env w with
  | mk r w1 => cases r <;> rfl

theorem tryFinally_perform_log {α : Type} (m : Run α) (a : Action) (env : Env) (w : World) :
    (Run.tryFinally m (perform a) env w).2.log =
      (m env w).2.log ++ [Event.act a (env.act (m env w).2.log a)] := by
  unfold Run.tryFinally perform
  cases m env w with
  | mk r w1 =>
    simp only []
    cases env.act w1.log a <;> rfl

theorem cacheGet_spec (key : String) (env : Env) (w : World) :
    ∃ v pre w1, cacheGet key env w = (Outcome.ok v, w1) ∧ w1.log = w.log ++ pre ∧
      ∀ e ∈ pre, ∃ t, e = Event.dateNow t := by
  unfold cacheGet
  split
  · exact ⟨_, [Event.dateNow (env.now w.log)], _, rfl, rfl, by simp⟩
  · exact ⟨_, [], _, rfl, by simp, by simp⟩

/-- C7.  In every run of `getFuelStationsByCoordinates`, the calls made are: readings of
the clock by the cache lookup, and then either nothing more (in particular on a cache
hit, where no tab is acquired), or a failed `getPage` alone, or a successful `getPage`
followed by calls that neither acquire nor close a tab and by exactly one final
`page.close()`, whatever the other calls returned or threw. -/
theorem tab_closed_exactly_once (coordinates : Coordinates) (fuelType : String)
    (radius : Int) (env : Env) (w : World) :
    ∃ pre rest,
      (getFuelStationsByCoordinates coordinates fuelType radius env w).2.log =
        w.log ++ (pre ++ rest) ∧
      (∀ e ∈ pre, e.isTabEvent = false) ∧
      (rest = [] ∨
        (∃ err, rest = [Event.getPage (Outcome.error err)]) ∨
        (∃ body r, rest = Event.getPage (Outcome.ok ()) :: (body ++ [Event.act Action.close r]) ∧
          ∀ e ∈ body, e.isTabEvent = false)) ∧
      (∀ data,
        (cacheGet (cacheKeyOf env coordinates fuelType radius) env w).1 = Outcome.ok (some data) →
          rest = [] ∧
          (getFuelStationsByCoordinates coordinates fuelType radius env w).1 =
            Outcome.ok data) := by
  obtain ⟨v, pre, w1, hget, hlog1, hpre0⟩ :=
    cacheGet_spec (cacheKeyOf env coordinates fuelType radius) env w
  have hpre : ∀ e ∈ pre, e.isTabEvent = false := by
    intro e he
    obtain ⟨t, rfl⟩ := hpre0 e he
    rfl
  refine ⟨pre, ?_⟩
  unfold getFuelStationsByCoordinates
  simp only [bind_eq, pure_eq]
  unfold Run.andThen
  simp only [hget]
  cases v with
  | some data =>
    refine ⟨[], by simp [Run.ret, hlog1], hpre, Or.inl rfl, ?_⟩
    intro d hd
    simp only [Outcome.ok.injEq, Option.some.injEq] at hd
    subst hd
    exact ⟨rfl, rfl⟩
  | none =>
    simp only [tryCatch_throw_world]
    cases hgp : env.getPage w1.log with
    | error err =>
      refine ⟨[Event.getPage (Outcome.error err)], ?_, hpre, Or.inr (Or.inl ⟨err, rfl⟩), ?_⟩
      · simp only [getPage, hgp]
        simp [hlog1]
      · intro d hd
        simp at hd
    | ok u =>
      obtain ⟨body, hbody, pbody⟩ :=
        emits_searchOnPage (P := fun e => e.isTabEvent = false)
          (cacheKeyOf env coordinates fuelType radius) coordinates fuelType radius
          (fun _ _ => rfl) (fun _ => rfl) (fun _ => rfl) (fun _ => rfl)
          (fun a r hne => by cases a <;> simp_all [Event.isTabEvent])
          env { w1 with log := w1.log ++ [Event.getPage (Outcome.ok u)] }
      refine ⟨Event.getPage (Outcome.ok ()) :: (body ++ [Event.act Action.close
          (env.act ((searchOnPage (cacheKeyOf env coordinates fuelType radius) coordinates
            fuelType radius env
            { w1 with log := w1.log ++ [Event.getPage (Outcome.ok u)] }).2.log) Action.close)]),
        ?_, hpre, Or.inr (Or.inr ⟨body, _, rfl, pbody⟩), ?_⟩
      · simp only [getPage, hgp, tryFinally_perform_log, hbody]
        simp [hlog1]
      · intro d hd
        simp at hd

/-! ### Navigation failures -/

theorem fails_perform (U : Url → Prop) (a : Action) : FailsOnNavigationError U (perform a) := by
  intro env w
  refine ⟨[Event.act a (env.act w.log a)], rfl, ?_⟩
  intro url e hmem _
  simp only [List.mem_singleton, Event.act.injEq] at hmem
  exact hmem.2.symm

theorem fails_of_emits {α : Type} (U : Url → Prop) {m : Run α}
    (h : Emits (fun ev => ∀ url e, ev = Event.act (Action.goto url) (Outcome.error e) → ¬ U url) m) :
    FailsOnNavigationError U m := by
  intro env w
  obtain ⟨es, hlog, hes⟩ := h env w
  refine ⟨es, hlog, ?_⟩
  intro url e hmem hU
  exact absurd hU (hes _ hmem url e rfl)

theorem fails_andThen {α β : Type} {U : Url → Prop} {m : Run α} {f : α → Run β}
    (hm : FailsOnNavigationError U m) (hf : ∀ a, FailsOnNavigationError U (f a)) :
    FailsOnNavigationError U (Run.andThen m f) := by
  intro env w
  obtain ⟨es1, h1, p1⟩ := hm env w
  unfold Run.andThen
  cases hr : m env w with
  | mk r w1 =>
    rw [hr] at h1 p1
    simp only [] at h1 p1
    cases r with
    | ok a =>
      obtain ⟨es2, h2, p2⟩ := hf a env w1
      refine ⟨es1 ++ es2, by simp only [h2, h1, List.append_assoc], ?_⟩
      intro url e hmem hU
      rcases List.mem_append.mp hmem with h | h
      · exact absurd (p1 url e h hU) (by simp)
      · exact p2 url e h hU
    | error e0 =>
      refine ⟨es1, h1, ?_⟩
      intro url e h hU
      have h0 := p1 url e h hU
      simp only [Outcome.error.injEq] at h0
      simp only [h0]

theorem fails_driveSearch (U : Url → Prop) (coordinates : Coordinates) (fuelType : String)
    (radius : Int) : FailsOnNavigationError U (driveSearch coordinates fuelType radius) := by
  have hs : ∀ l, FailsOnNavigationError U (trySelectors l) := fun l =>
    fails_of_emits U (emits_trySelectors (fun _ _ => by simp) (fun _ _ => by simp) l)
  have ho : ∀ (b : Bool) (a : Action), FailsOnNavigationError U (otherwise b (perform a)) := by
    intro b a
    unfold otherwise
    split
    · exact fails_of_emits U (emits_ret _ _)
    · exact fails_perform U a
  unfold driveSearch simulateHumanBehavior
  simp only [bind_eq, pure_eq]
  refine fails_andThen (fails_perform U _) fun _ => ?_
  refine fails_andThen (fails_andThen (fails_perform U _) fun _ => fails_perform U _) fun _ => ?_
  refine fails_andThen (hs _) fun _ => ?_
  refine fails_andThen (ho _ _) fun _ => ?_
  refine fails_andThen (fails_perform U _) fun _ => ?_
  refine fails_andThen (hs _) fun _ => ?_
  refine fails_andThen (ho _ _) fun _ => ?_
  refine fails_andThen (fails_perform U _) fun _ => ?_
  refine fails_andThen (fails_perform U _) fun _ => ?_
  refine fails_andThen (hs _) fun _ => ?_
  refine fails_andThen (ho _ _) fun _ => ?_
  exact fails_perform U _

theorem fails_searchOnPage (cacheKey : String) (coordinates : Coordinates) (fuelType : String)
    (radius : Int) :
    FailsOnNavigationError (fun url => url ≠ alternativeUrl coordinates radius)
      (searchOnPage cacheKey coordinates fuelType radius) := by
  unfold searchOnPage
  simp only [bind_eq, pure_eq]
  refine fails_andThen (fails_driveSearch _ coordinates fuelType radius) fun _ => ?_
  refine fails_of_emits _ ?_
  refine emits_andThen (emits_extractStationsFromPage fuelType (fun _ => by simp)
    (fun _ => by simp)) fun stations => ?_
  refine emits_ite _ ?_ ?_
  · refine emits_getFuelStationsAlternative coordinates fuelType radius (fun _ => by simp)
      (fun _ => by simp) ?_ (fun _ => by simp)
    intro r url e h
    simp only [Event.act.injEq, Action.goto.injEq] at h
    simp [h.1]
  · refine emits_andThen (emits_configCacheTtl _) fun ttl => ?_
    exact emits_andThen (emits_cacheSet _ _ _ (fun _ => by simp)) fun _ => emits_ret _ _

/-- The three navigations of the main flow never go to the address of the alternative
search: no fuel type has the search term `posto`. -/
theorem main_navigation_ne_alternative (coordinates : Coordinates) (fuelType : String)
    (radius : Int) :
    Url.base ≠ alternativeUrl coordinates radius ∧
    Url.search ≠ alternativeUrl coordinates radius ∧
    Url.searchWith (searchTermOf fuelType) coordinates.latitude coordinates.longitude radius ≠
      alternativeUrl coordinates radius := by
  refine ⟨by simp [alternativeUrl], by simp [alternativeUrl], ?_⟩
  have hterm : searchTermOf fuelType ≠ "posto" := by
    unfold searchTermOf
    split_ifs <;> decide
  simp [alternativeUrl, hterm]

/-- C10 (counterexample).  When the navigation of the alternative `posto` search times
out, the error is swallowed: the run returns an empty sequence and the caller receives a
success envelope, although the history holds a failed navigation. -/
theorem alternative_navigation_failure_counterexample :
    Event.act (Action.goto (alternativeUrl sampleCoordinates 5))
        (Outcome.error ⟨"Navigation timeout of 30000 ms exceeded"⟩) ∈
      (getFuelStationsByCep "40000000" "gasolina" 5 (Completion.returned sampleCoordinates)
        alternativeTimeoutEnv World.fresh).2.log ∧
    (getFuelStationsByCep "40000000" "gasolina" 5 (Completion.returned sampleCoordinates)
        alternativeTimeoutEnv World.fresh).1 =
      Outcome.ok
        { success := true, data := [],
          meta := { total := 0, radius := 5, cep := "40000000",
                    coordinates := sampleCoordinates },
          error := none } := by
  refine ⟨by decide!, by decide!⟩

/-- C10 (amended).  In every run, a failed navigation to an address other than that of
the alternative `posto` search makes `getFuelStationsByCoordinates` throw, and the caller
receives a failure envelope: `success = false`, no data, and as error the text
`Falha ao buscar postos: ` followed by the message of the navigation error (or of the
error thrown by `page.close()`, if closing the tab failed too). -/
theorem navigation_failure_gives_failure_envelope (coordinates : Coordinates)
    (cep city state fuelType : String) (radius : Int) (env : Env) (w : World)
    (url : Url) (e : JsError)
    (hfail : Event.act (Action.goto url) (Outcome.error e) ∈
      (getFuelStationsByCoordinates coordinates fuelType radius env w).2.log.drop w.log.length)
    (hmain : url ≠ alternativeUrl coordinates radius) :
    ∃ cause : JsError,
      (cause = e ∨ Event.act Action.close (Outcome.error cause) ∈
        (getFuelStationsByCoordinates coordinates fuelType radius env w).2.log.drop w.log.length) ∧
      (getFuelStationsByCoordinates coordinates fuelType radius env w).1 =
        Outcome.error ⟨"Falha ao buscar postos: " ++ cause.message⟩ ∧
      (getFuelStationsByCep cep fuelType radius (Completion.returned coordinates) env w).1 =
        Outcome.ok
          { success := false, data := [],
            meta := { total := 0, radius := radius, cep := cep, coordinates := ⟨0, 0⟩ },
            error := some ("Falha ao buscar postos: " ++ cause.message) } ∧
      (getFuelStationsByCity city state fuelType radius (Completion.returned coordinates)
          env w).1 =
        Outcome.ok
          { success := false, data := [],
            meta := { total := 0, radius := radius, city := city, state := state,
                      coordinates := ⟨0, 0⟩ },
            error := some ("Falha ao buscar postos: " ++ cause.message) } := by
  suffices hkey : ∃ cause : JsError,
      (cause = e ∨ Event.act Action.close (Outcome.error cause) ∈
        (getFuelStationsByCoordinates coordinates fuelType radius env w).2.log.drop w.log.length) ∧
      (getFuelStationsByCoordinates coordinates fuelType radius env w).1 =
        Outcome.error ⟨"Falha ao buscar postos: " ++ cause.message⟩ by
    obtain ⟨cause, hc, hr⟩ := hkey
    refine ⟨cause, hc, hr, ?_, ?_⟩
    · cases hrun : getFuelStationsByCoordinates coordinates fuelType radius env w with
      | mk r w1 =>
        rw [hrun] at hr
        simp only [] at hr
        subst hr
        simp [getFuelStationsByCep, hrun]
    · cases hrun : getFuelStationsByCoordinates coordinates fuelType radius env w with
      | mk r w1 =>
        rw [hrun] at hr
        simp only [] at hr
        subst hr
        simp [getFuelStationsByCity, hrun]
  obtain ⟨v, pre, w1, hget, hlog1, hpre⟩ :=
    cacheGet_spec (cacheKeyOf env coordinates fuelType radius) env w
  revert hfail
  unfold getFuelStationsByCoordinates
  simp only [bind_eq, pure_eq]
  unfold Run.andThen
  simp only [hget]
  cases v with
  | some data =>
    intro hfail
    simp only [Run.ret, hlog1, List.drop_left] at hfail
    obtain ⟨t, ht⟩ := hpre _ hfail
    simp at ht
  | none =>
    simp only [tryCatch_throw_world]
    cases hgp : env.getPage w1.log with
    | error err =>
      intro hfail
      simp only [getPage, hgp] at hfail
      simp only [hlog1, List.append_assoc, List.drop_left, List.mem_append,
        List.mem_singleton] at hfail
      rcases hfail with h | h
      · obtain ⟨t, ht⟩ := hpre _ h
        simp at ht
      · simp at h
    | ok u =>
      obtain ⟨body, hbody, pbody⟩ :=
        fails_searchOnPage (cacheKeyOf env coordinates fuelType radius) coordinates fuelType
          radius env { w1 with log := w1.log ++ [Event.getPage (Outcome.ok u)] }
      intro hfail
      simp only [getPage, hgp, tryFinally_perform_log, hbody] at hfail
      simp only [hlog1, List.append_assoc, List.drop_left, List.mem_append,
        List.mem_singleton, List.mem_cons] at hfail
      have hin : Event.act (Action.goto url) (Outcome.error e) ∈ body := by
        rcases hfail with h | h | h | h
        · obtain ⟨t, ht⟩ := hpre _ h
          simp at ht
        · simp at h
        · exact h
        · simp at h
      have hres := pbody url e hin hmain
      simp only [getPage, hgp, tryFinally_perform_log]
      unfold Run.tryCatch Run.tryFinally
      cases hsp : searchOnPage (cacheKeyOf env coordinates fuelType radius) coordinates
          fuelType radius env { w1 with log := w1.log ++ [Event.getPage (Outcome.ok u)] } with
      | mk r1 w3 =>
        rw [hsp] at hres hbody
        simp only [] at hres hbody
        subst hres
        cases hcl : env.act w3.log Action.close with
        | ok u2 =>
          refine ⟨e, Or.inl rfl, ?_⟩
          simp only [getPage, hgp, hsp, perform, hcl, Run.throw]
        | error e2 =>
          refine ⟨e2, Or.inr ?_, ?_⟩
          · have hcl2 : env.act (w.log ++ (pre ++ (Event.getPage (Outcome.ok u) :: body)))
                Action.close = Outcome.error e2 := by
              rw [← hcl, hbody, hlog1]
              simp
            simp [hsp, hbody, hlog1, hcl2]
          · simp only [getPage, hgp, hsp, perform, hcl, Run.throw]

/-- C10 (witness).  A timeout of the landing navigation reaches the caller as a failure
envelope. -/
theorem navigation_failure_gives_failure_envelope_witness :
    ∃ envelope,
      (getFuelStationsByCep "40000000" "gasolina" 5 (Completion.returned sampleCoordinates)
          landingTimeoutEnv World.fresh).1 = Outcome.ok envelope ∧
      envelope.success = false ∧ envelope.data = [] := by
  obtain ⟨cause, _, _, h, _⟩ :=
    navigation_failure_gives_failure_envelope sampleCoordinates "40000000" "Salvador" "BA"
      "gasolina" 5 landingTimeoutEnv World.fresh Url.base
      ⟨"Navigation timeout of 30000 ms exceeded"⟩ (by decide!) (by decide)
  exact ⟨_, h, rfl, rfl⟩

/-! ### The alternative search -/

/-- C8.  In a session whose first results page shows nothing and whose alternative
search shows one station, `getFuelStationsByCoordinates` returns that station on a cache
miss with the cache enabled, and leaves the cache empty: the identical query that
follows acquires a tab again. -/
theorem alternative_result_not_cached :
    (getFuelStationsByCoordinates sampleCoordinates "gasolina" 5 alternativeOnlyEnv
        World.fresh).1 =
      Outcome.ok
        [{ name := "Posto Central", address := "Av. Sete, Salvador, BA", city := "Salvador",
           state := "BA", price := JsNumber.value ⟨579, 2⟩, fuelType := "gasolina" }] ∧
    (getFuelStationsByCoordinates sampleCoordinates "gasolina" 5 alternativeOnlyEnv
        World.fresh).2.cache = { cache := [], enabled := true } ∧
    ((getFuelStationsByCoordinates sampleCoordinates "gasolina" 5 alternativeOnlyEnv
        (getFuelStationsByCoordinates sampleCoordinates "gasolina" 5 alternativeOnlyEnv
          World.fresh).2).2.log.count (Event.getPage (Outcome.ok ()))) = 2 := by
  refine ⟨by decide!, by decide!, by decide!⟩

theorem extractStationsFromPage_empty (fuelType : String) (env : Env) (w : World)
    (h : (extractStationsFromPage fuelType env w).1 = Outcome.ok []) :
    ∃ post, (extractStationsFromPage fuelType env w).2.log = w.log ++ post ∧
      ExtractionEndsEmpty fuelType post := by
  revert h
  unfold extractStationsFromPage
  simp only [bind_eq, pure_eq]
  unfold Run.tryCatch Run.andThen pageCards
  cases hc : env.evaluateCards w.log with
  | error e =>
    intro _
    exact ⟨[Event.evaluateCards (Outcome.error e)], by simp [Run.ret], Or.inl ⟨e, rfl⟩⟩
  | ok cards =>
    simp only []
    by_cases hlen : (evaluateCards fuelType cards).length = 0
    · have hnil : evaluateCards fuelType cards = [] := List.length_eq_zero.mp hlen
      simp only [hlen, if_true, pageContent]
      cases hh : env.content (w.log ++ [Event.evaluateCards (Outcome.ok cards)]) with
      | error e =>
        intro _
        refine ⟨[Event.evaluateCards (Outcome.ok cards), Event.content (Outcome.error e)],
          by simp [Run.ret], Or.inr ⟨cards, _, rfl, hnil, Or.inl ⟨e, rfl⟩⟩⟩
      | ok html =>
        simp only []
        by_cases hg : hasPriceInfo html.data = true
        · simp only [hg, if_true, Run.ret]
          intro hres
          simp only [Outcome.ok.injEq] at hres
          exact ⟨[Event.evaluateCards (Outcome.ok cards), Event.content (Outcome.ok html)],
            by simp, Or.inr ⟨cards, _, rfl, hnil, Or.inr ⟨html, rfl, Or.inr hres⟩⟩⟩
        · have hg2 : hasPriceInfo html.data = false := by simpa using hg
          simp only [hg2, Bool.false_eq_true, if_false, Run.ret]
          intro _
          exact ⟨[Event.evaluateCards (Outcome.ok cards), Event.content (Outcome.ok html)],
            by simp, Or.inr ⟨cards, _, rfl, hnil, Or.inr ⟨html, rfl, Or.inl hg2⟩⟩⟩
    · simp only [hlen, if_false, Run.ret]
      intro hres
      simp only [Outcome.ok.injEq] at hres
      exact absurd (by rw [hres]; rfl) hlen

theorem tryCatch_ret_returns {α : Type} (m : Run α) (a0 : α) (env : Env) (w : World) :
    ∃ a, (Run.tryCatch m (fun _ => Run.ret a0) env w).1 = Outcome.ok a := by
  unfold Run.tryCatch Run.ret
  cases m env w with
  | mk r w1 =>
    cases r with
    | ok a => exact ⟨a, rfl⟩
    | error e => exact ⟨a0, rfl⟩

theorem extractStationsFromPage_returns (fuelType : String) (env : Env) (w : World) :
    ∃ stations, (extractStationsFromPage fuelType env w).1 = Outcome.ok stations :=
  tryCatch_ret_returns _ _ env w

theorem getFuelStationsAlternative_returns (coordinates : Coordinates) (fuelType : String)
    (radius : Int) (env : Env) (w : World) :
    ∃ stations,
      (getFuelStationsAlternative coordinates fuelType radius env w).1 = Outcome.ok stations :=
  tryCatch_ret_returns _ _ env w

theorem getFuelStationsAlternative_empty (coordinates : Coordinates) (fuelType : String)
    (radius : Int) (env : Env) (w : World)
    (h : (getFuelStationsAlternative coordinates fuelType radius env w).1 = Outcome.ok []) :
    ∃ r post,
      (getFuelStationsAlternative coordinates fuelType radius env w).2.log =
        w.log ++ (Event.act (Action.goto (alternativeUrl coordinates radius)) r :: post) ∧
      AlternativeEndsEmpty fuelType r post := by
  revert h
  unfold getFuelStationsAlternative
  simp only [bind_eq, pure_eq]
  unfold Run.tryCatch Run.andThen perform
  cases hg : env.act w.log (Action.goto (alternativeUrl coordinates radius)) with
  | error e =>
    intro _
    exact ⟨_, [], by simp [Run.ret], Or.inl ⟨e, rfl, rfl⟩⟩
  | ok u =>
    simp only []
    cases hw : env.act (w.log ++ [Event.act (Action.goto (alternativeUrl coordinates radius))
        (Outcome.ok u)]) (Action.waitForTimeout 3000) with
    | error e =>
      intro _
      exact ⟨_, [Event.act (Action.waitForTimeout 3000) (Outcome.error e)], by simp [Run.ret],
        Or.inr ⟨rfl, Or.inl ⟨e, rfl⟩⟩⟩
    | ok u2 =>
      simp only []
      cases hx : extractStationsFromPage fuelType env
          { w with log := w.log ++ [Event.act (Action.goto (alternativeUrl coordinates radius))
              (Outcome.ok u)] ++ [Event.act (Action.waitForTimeout 3000) (Outcome.ok u2)] } with
      | mk rx wx =>
        cases rx with
        | error e =>
          simp only [Run.ret]
          intro _
          obtain ⟨s, hs⟩ := extractStationsFromPage_returns fuelType env
            { w with log := w.log ++ [Event.act (Action.goto (alternativeUrl coordinates radius))
              (Outcome.ok u)] ++ [Event.act (Action.waitForTimeout 3000) (Outcome.ok u2)] }
          rw [hx] at hs
          simp at hs
        | ok stations =>
          simp only [Run.ret]
          intro hres
          simp only [Outcome.ok.injEq] at hres
          subst hres
          obtain ⟨post2, hlog2, hpost2⟩ := extractStationsFromPage_empty fuelType env _
            (by rw [hx])
          rw [hx] at hlog2
          simp only [] at hlog2
          exact ⟨_, Event.act (Action.waitForTimeout 3000) (Outcome.ok ()) :: post2,
            by simp [hlog2], Or.inr ⟨rfl, Or.inr ⟨post2, rfl, hpost2⟩⟩⟩

theorem searchOnPage_empty (cacheKey : String) (coordinates : Coordinates) (fuelType : String)
    (radius : Int) (env : Env) (w : World)
    (h : (searchOnPage cacheKey coordinates fuelType radius env w).1 = Outcome.ok []) :
    ∃ pre w2, w2.log = w.log ++ pre ∧
      searchOnPage cacheKey coordinates fuelType radius env w =
        getFuelStationsAlternative coordinates fuelType radius env w2 := by
  obtain ⟨es1, hes1, _⟩ := emits_driveSearch (P := fun _ => True) coordinates fuelType radius
    (fun _ _ => trivial) (fun _ _ _ => trivial) env w
  revert h
  unfold searchOnPage
  simp only [bind_eq, pure_eq]
  unfold Run.andThen
  cases hd : driveSearch coordinates fuelType radius env w with
  | mk r w1 =>
    rw [hd] at hes1
    simp only [] at hes1
    cases r with
    | error e => intro h; simp at h
    | ok u =>
      simp only []
      obtain ⟨es2, hes2, _⟩ := emits_extractStationsFromPage (P := fun _ => True) fuelType
        (fun _ => trivial) (fun _ => trivial) env w1
      cases hx : extractStationsFromPage fuelType env w1 with
      | mk rx w2 =>
        rw [hx] at hes2
        simp only [] at hes2
        cases rx with
        | error e => intro h; simp at h
        | ok stations =>
          simp only []
          by_cases hlen : stations.length = 0
          · simp only [hlen, if_true]
            intro _
            exact ⟨es1 ++ es2, w2, by rw [hes2, hes1, List.append_assoc], rfl⟩
          · simp only [hlen, if_false, configCacheTtl, cacheSet, Run.ret]
            intro h
            have hs : stations = [] := by
              split at h <;> first | (simp at h; exact h) | simp at h
            exact absurd (by rw [hs]; rfl) hlen

/-- C9 (counterexample).  Two runs on a cache miss that return an empty sequence without
the manual pairing having found no record.  In the first, no page shows a card and the
markup holds a heading and a price but neither `posto` nor `Posto`: the pairing would find
a record, and is not applied.  In the second, the navigation of the alternative search
times out: the run ends with that failed navigation and the closing of the tab, and no
markup is read after it. -/
theorem alternative_returns_empty_counterexample :
    (getFuelStationsByCoordinates sampleCoordinates "gasolina" 5 (staticEnv [] ungatedMarkup)
        World.fresh).1 = Outcome.ok [] ∧
    manualStations "gasolina" ungatedMarkup =
      [{ name := "Auto Center", address := "Endereço não disponível", city := "Salvador",
         state := "BA", price := JsNumber.value ⟨500, 2⟩, fuelType := "gasolina" }] ∧
    (getFuelStationsByCoordinates sampleCoordinates "gasolina" 5 alternativeTimeoutEnv
        World.fresh).1 = Outcome.ok [] ∧
    ((getFuelStationsByCoordinates sampleCoordinates "gasolina" 5 alternativeTimeoutEnv
        World.fresh).2.log.reverse.take 2) =
      [Event.act Action.close (Outcome.ok ()),
       Event.act (Action.goto (alternativeUrl sampleCoordinates 5))
         (Outcome.error ⟨"Navigation timeout of 30000 ms exceeded"⟩)] := by
  refine ⟨by decide!, by decide!, by decide!, by decide!⟩

/-- C9 (amended).  Every run of `getFuelStationsByCoordinates` on a cache miss that
returns an empty sequence has navigated to the alternative `posto` search before
returning, and after that navigation only closes the tab; the alternative search ended in
one of these ways: its navigation, its wait or its page script threw; or its page script
found no station card and then the reading of the markup threw, or the markup does not
contain `R$` together with `posto` or `Posto`, or the manual pairing applied to that
markup found no record. -/
theorem empty_result_follows_alternative_search (coordinates : Coordinates)
    (fuelType : String) (radius : Int) (env : Env) (w : World)
    (hmiss : (cacheGet (cacheKeyOf env coordinates fuelType radius) env w).1 = Outcome.ok none)
    (hempty : (getFuelStationsByCoordinates coordinates fuelType radius env w).1 =
      Outcome.ok []) :
    ∃ pre r post rc,
      (getFuelStationsByCoordinates coordinates fuelType radius env w).2.log =
        w.log ++ (pre ++ Event.act (Action.goto (alternativeUrl coordinates radius)) r ::
          (post ++ [Event.act Action.close rc])) ∧
      AlternativeEndsEmpty fuelType r post := by
  obtain ⟨v, pre0, w1, hget, hlog1, _⟩ :=
    cacheGet_spec (cacheKeyOf env coordinates fuelType radius) env w
  rw [hget] at hmiss
  simp only [Outcome.ok.injEq] at hmiss
  subst hmiss
  revert hempty
  unfold getFuelStationsByCoordinates
  simp only [bind_eq, pure_eq]
  unfold Run.andThen
  simp only [hget]
  unfold Run.tryCatch Run.tryFinally
  simp only [getPage]
  cases hgp : env.getPage w1.log with
  | error err => intro h; simp [Run.throw] at h
  | ok u =>
    simp only []
    cases hsp : searchOnPage (cacheKeyOf env coordinates fuelType radius) coordinates
        fuelType radius env { w1 with log := w1.log ++ [Event.getPage (Outcome.ok u)] } with
    | mk r1 w3 =>
      simp only [perform]
      cases hcl : env.act w3.log Action.close with
      | error e2 => intro h; simp [Run.throw] at h
      | ok u2 =>
        simp only []
        cases r1 with
        | error e1 => intro h; simp [Run.throw] at h
        | ok stations =>
          simp only []
          intro h
          simp only [Outcome.ok.injEq] at h
          subst h
          obtain ⟨pre1, w2, hlog2, heq⟩ := searchOnPage_empty _ coordinates fuelType radius env
            _ (by rw [hsp])
          rw [hsp] at heq
          obtain ⟨r, post, hlog3, hends⟩ := getFuelStationsAlternative_empty coordinates
            fuelType radius env w2 (by rw [← heq])
          rw [← heq] at hlog3
          simp only [] at hlog3 hlog2
          refine ⟨pre0 ++ Event.getPage (Outcome.ok u) :: pre1, r, post, Outcome.ok u2, ?_, hends⟩
          simp [hlog3, hlog2, hlog1]

/-- C9 (witness).  A session whose pages show no card and no price: the run returns an
empty sequence after the alternative search. -/
theorem empty_result_follows_alternative_search_witness :
    ∃ pre r post rc,
      (getFuelStationsByCoordinates sampleCoordinates "gasolina" 5
          (staticEnv [] "<html><body></body></html>") World.fresh).2.log =
        World.fresh.log ++ (pre ++ Event.act (Action.goto (alternativeUrl sampleCoordinates 5)) r ::
          (post ++ [Event.act Action.close rc])) ∧
      AlternativeEndsEmpty "gasolina" r post :=
  empty_result_follows_alternative_search sampleCoordinates "gasolina" 5
    (staticEnv [] "<html><body></body></html>") World.fresh (by decide!) (by decide!)

end ScraperService

namespace CacheService

/-! ### Eviction -/

theorem mapDelete_eq_filter {α : Type} (m : List (String × Item α)) (key : String)
    (hnodup : (m.map Prod.fst).Nodup) :
    mapDelete m key = m.filter (fun e => e.1 ≠ key) := by
  induction m with
  | nil => rfl
  | cons hd tl ih =>
    obtain ⟨k, it⟩ := hd
    simp only [List.map_cons, List.nodup_cons] at hnodup
    by_cases h : k = key
    · subst h
      have hrest : tl.filter (fun e => e.1 ≠ k) = tl := by
        rw [List.filter_eq_self]
        intro e he
        have hne : e.1 ≠ k := by
          intro heq
          exact hnodup.1 (heq ▸ List.mem_map_of_mem Prod.fst he)
        simpa using hne
      simp only [mapDelete, if_true]
      simpa using hrest.symm
    · simpa [mapDelete, h] using ih hnodup.2

theorem mapGet_filter_ne {α : Type} (m : List (String × Item α)) (key k : String) :
    mapGet (m.filter (fun e => e.1 ≠ key)) k = if k = key then none else mapGet m k := by
  induction m with
  | nil => simp [mapGet]
  | cons hd tl ih =>
    obtain ⟨k0, it⟩ := hd
    simp only [ne_eq, decide_not] at ih ⊢
    by_cases h0 : k0 = key
    · subst h0
      by_cases hk : k = k0
      · simpa [hk] using ih
      · have hk2 : ¬ k0 = k := fun h => hk h.symm
        simpa [hk, hk2, mapGet] using ih
    · by_cases hk : k0 = k
      · subst hk
        simp [h0, mapGet]
      · simpa [h0, mapGet, hk] using ih

/-- C15.  For an enabled cache (a map with one entry per key): `get(key)` on an entry
whose expiry instant has passed returns `null` and removes exactly that entry, every other
entry staying as it was; `get` on an entry whose expiry instant has not passed, and `get`
on a missing key, leave the whole state as it was (so no expiry is refreshed). -/
theorem get_evicts_only_expired {α : Type} (s : State α) (henabled : s.enabled = true)
    (hnodup : (s.cache.map Prod.fst).Nodup) (now : Int) (key : String) :
    (∀ item, mapGet s.cache key = some item → now > item.expiry →
      (get s now key).1 = none ∧
      (get s now key).2.enabled = true ∧
      (get s now key).2.cache = s.cache.filter (fun e => e.1 ≠ key) ∧
      mapGet (get s now key).2.cache key = none ∧
      ∀ k, k ≠ key → mapGet (get s now key).2.cache k = mapGet s.cache k) ∧
    (∀ item, mapGet s.cache key = some item → now ≤ item.expiry →
      (get s now key).1 = some item.value ∧ (get s now key).2 = s) ∧
    (mapGet s.cache key = none → (get s now key).1 = none ∧ (get s now key).2 = s) := by
  refine ⟨?_, ?_, ?_⟩
  · intro item hitem hexp
    have hg : get s now key = (none, { s with cache := mapDelete s.cache key }) := by
      simp [get, henabled, hitem, hexp]
    have hcache : (get s now key).2.cache = s.cache.filter (fun e => e.1 ≠ key) := by
      rw [hg]
      exact mapDelete_eq_filter s.cache key hnodup
    refine ⟨by rw [hg], by rw [hg]; exact henabled, hcache, ?_, ?_⟩
    · rw [hcache, mapGet_filter_ne]
      simp
    · intro k hk
      rw [hcache, mapGet_filter_ne]
      simp [hk]
  · intro item hitem hlive
    simp [get, henabled, hitem, not_lt.mpr hlive]
  · intro hnone
    simp [get, henabled, hnone]

/-- C15 (witness).  A cache with an entry `a` expired at instant 10 and an entry `b` live
until 99: reading `a` at instant 50 removes `a` only; reading `b` changes nothing. -/
theorem get_evicts_only_expired_witness :
    (get ({ cache := [("a", ⟨1, 10⟩), ("b", ⟨2, 99⟩)], enabled := true } : State Nat) 50 "a").2.cache =
      [("b", ⟨2, 99⟩)] ∧
    (get ({ cache := [("a", ⟨1, 10⟩), ("b", ⟨2, 99⟩)], enabled := true } : State Nat) 50 "b").2 =
      { cache := [("a", ⟨1, 10⟩), ("b", ⟨2, 99⟩)], enabled := true } :=
  ⟨((get_evicts_only_expired
      ({ cache := [("a", ⟨1, 10⟩), ("b", ⟨2, 99⟩)], enabled := true } : State Nat) rfl
      (by decide) 50 "a").1 ⟨1, 10⟩ (by decide) (by decide)).2.2.1,
   ((get_evicts_only_expired
      ({ cache := [("a", ⟨1, 10⟩), ("b", ⟨2, 99⟩)], enabled := true } : State Nat) rfl
      (by decide) 50 "b").2.1 ⟨2, 99⟩ (by decide) (by decide)).2⟩

end CacheService

namespace CacheService

/-! ### Decoding a key -/

theorem append_sep_inj (c : Char) :
    ∀ (a b x y : List Char), c ∉ a → c ∉ b →
      (x = [] ∨ ∃ t, x = c :: t) → (y = [] ∨ ∃ t, y = c :: t) →
      a ++ x = b ++ y → a = b ∧ x = y := by
  intro a
  induction a with
  | nil =>
    intro b x y _ hb hx hy h
    cases b with
    | nil => exact ⟨rfl, by simpa using h⟩
    | cons d b2 =>
      exfalso
      simp only [List.nil_append] at h
      rcases hx with hx | ⟨t, hx⟩
      · rw [hx] at h
        simp at h
      · rw [hx] at h
        simp only [List.cons_append, List.cons.injEq] at h
        exact hb (h.1 ▸ List.mem_cons_self _ _)
  | cons e a2 ih =>
    intro b x y ha hb hx hy h
    cases b with
    | nil =>
      exfalso
      simp only [List.nil_append] at h
      rcases hy with hy | ⟨t, hy⟩
      · rw [hy] at h
        simp at h
      · rw [hy] at h
        simp only [List.cons_append, List.cons.injEq] at h
        exact ha (h.1 ▸ List.mem_cons_self _ _)
    | cons d b2 =>
      simp only [List.cons_append, List.cons.injEq] at h
      have ha2 : c ∉ a2 := fun hm => ha (List.mem_cons_of_mem _ hm)
      have hb2 : c ∉ b2 := fun hm => hb (List.mem_cons_of_mem _ hm)
      obtain ⟨h1, h2⟩ := ih b2 x y ha2 hb2 hx hy h.2
      exact ⟨by rw [h.1, h1], h2⟩

theorem intercalate_go_data (sep : String) :
    ∀ (l : List String) (acc : String),
      (String.intercalate.go acc sep l).data =
        acc.data ++ (l.map (fun s => sep.data ++ s.data)).flatten := by
  intro l
  induction l with
  | nil => intro acc; simp [String.intercalate.go]
  | cons a as ih =>
    intro acc
    simp [String.intercalate.go, ih, List.append_assoc]

theorem followingPairs_shape (l : List (String × String)) :
    followingPairs l = [] ∨ ∃ t, followingPairs l = '&' :: t := by
  cases l with
  | nil => exact Or.inl rfl
  | cons x xs => exact Or.inr ⟨_, rfl⟩

theorem pair_text_inj (a b : String × String) (x y : List Char)
    (ha : '=' ∉ a.1.data ∧ '&' ∉ a.2.data) (hb : '=' ∉ b.1.data ∧ '&' ∉ b.2.data)
    (hx : x = [] ∨ ∃ t, x = '&' :: t) (hy : y = [] ∨ ∃ t, y = '&' :: t)
    (h : a.1.data ++ '=' :: (a.2.data ++ x) = b.1.data ++ '=' :: (b.2.data ++ y)) :
    a = b ∧ x = y := by
  obtain ⟨hk, hrest⟩ := append_sep_inj '=' a.1.data b.1.data _ _ ha.1 hb.1
    (Or.inr ⟨_, rfl⟩) (Or.inr ⟨_, rfl⟩) h
  obtain ⟨hv, hxy⟩ := append_sep_inj '&' a.2.data b.2.data x y ha.2 hb.2 hx hy
    (List.cons.inj hrest).2
  exact ⟨Prod.ext (String.ext hk) (String.ext hv), hxy⟩

theorem followingPairs_inj :
    ∀ (l1 l2 : List (String × String)),
      (∀ e ∈ l1, '=' ∉ e.1.data ∧ '&' ∉ e.2.data) →
      (∀ e ∈ l2, '=' ∉ e.1.data ∧ '&' ∉ e.2.data) →
      followingPairs l1 = followingPairs l2 → l1 = l2 := by
  intro l1
  induction l1 with
  | nil =>
    intro l2 _ _ h
    cases l2 with
    | nil => rfl
    | cons b l2 => simp [followingPairs] at h
  | cons a l1 ih =>
    intro l2 h1 h2 h
    cases l2 with
    | nil => simp [followingPairs] at h
    | cons b l2 =>
      have h3 : a.1.data ++ '=' :: (a.2.data ++ followingPairs l1) =
          b.1.data ++ '=' :: (b.2.data ++ followingPairs l2) := by
        simpa [followingPairs, List.append_assoc] using h
      obtain ⟨hab, hrest⟩ := pair_text_inj a b _ _ (h1 a (List.mem_cons_self _ _))
        (h2 b (List.mem_cons_self _ _)) (followingPairs_shape l1) (followingPairs_shape l2) h3
      rw [hab, ih l2 (fun e he => h1 e (List.mem_cons_of_mem _ he))
        (fun e he => h2 e (List.mem_cons_of_mem _ he)) hrest]

theorem intercalate_pairs_data (l : List (String × String)) :
    '&' :: ("&".intercalate (l.map fun e => e.1 ++ "=" ++ e.2)).data =
      if l = [] then ['&'] else followingPairs l := by
  cases l with
  | nil => rfl
  | cons a l =>
    simp [String.intercalate, intercalate_go_data, followingPairs, String.data_append,
      List.map_map, Function.comp_def, List.append_assoc]

/-- C20 (counterexample).  A value that contains `&` and `=` reads like a further pair:
a mapping with the single pair `type = "etanol&zone=1"` and a mapping with the two pairs
`type = "etanol"`, `zone = "1"` get the same key. -/
theorem generateKey_collision_counterexample :
    generateKey localeCompare "coordinates" [("type", "etanol&zone=1")] =
      generateKey localeCompare "coordinates" [("type", "etanol"), ("zone", "1")] ∧
    ¬ List.Perm [("type", "etanol&zone=1")] [("type", "etanol"), ("zone", "1")] :=
  ⟨by decide, fun h => absurd h.length_eq (by decide)⟩

/-- C20 (amended).  For every comparator, every prefix and any two parameter mappings
whose names contain no `=` and whose rendered values contain no `&`: if `generateKey`
returns the same string for both, the two mappings hold the same name/value pairs (as
rendered). -/
theorem generateKey_injective (cmp : String → String → Int) (pfx : String)
    (p q : List (String × String))
    (hp : ∀ e ∈ p, '=' ∉ e.1.data ∧ '&' ∉ e.2.data)
    (hq : ∀ e ∈ q, '=' ∉ e.1.data ∧ '&' ∉ e.2.data)
    (h : generateKey cmp pfx p = generateKey cmp pfx q) : p.Perm q := by
  have hsp : (sortEntries cmp p).Perm p := List.perm_insertionSort _ p
  have hsq : (sortEntries cmp q).Perm q := List.perm_insertionSort _ q
  unfold generateKey at h
  have hd := congrArg String.data h
  simp only [String.data_append, List.append_assoc, List.append_cancel_left_eq] at hd
  have hbody := congrArg (List.cons '&') hd
  rw [intercalate_pairs_data, intercalate_pairs_data] at hbody
  have hsorted : sortEntries cmp p = sortEntries cmp q := by
    by_cases h1 : sortEntries cmp p = []
    · by_cases h2 : sortEntries cmp q = []
      · rw [h1, h2]
      · exfalso
        rw [if_pos h1, if_neg h2] at hbody
        cases hq2 : sortEntries cmp q with
        | nil => exact h2 hq2
        | cons b l =>
          rw [hq2] at hbody
          simp [followingPairs] at hbody
    · by_cases h2 : sortEntries cmp q = []
      · exfalso
        rw [if_neg h1, if_pos h2] at hbody
        cases hp2 : sortEntries cmp p with
        | nil => exact h1 hp2
        | cons b l =>
          rw [hp2] at hbody
          simp [followingPairs] at hbody
      · rw [if_neg h1, if_neg h2] at hbody
        exact followingPairs_inj _ _ (fun e he => hp e (hsp.subset he))
          (fun e he => hq e (hsq.subset he)) hbody
  exact hsp.symm.trans (hsorted ▸ hsq)

/-- C20 (witness).  Two queries with the same key hold the same pairs; one of the names
contains `&`. -/
theorem generateKey_injective_witness :
    List.Perm [("type", "etanol"), ("lat&lng", "-13")] [("lat&lng", "-13"), ("type", "etanol")] :=
  generateKey_injective localeCompare "coordinates"
    [("type", "etanol"), ("lat&lng", "-13")] [("lat&lng", "-13"), ("type", "etanol")]
    (by decide) (by decide) (by decide)

end CacheService

namespace ScraperService

/-! ### The manual extraction and the price of a card -/

/-- C17.  In a markup that shows the headings `Posto A` and `Posto B` and then one price,
the heading nearest to the price (and the nearest one before it) is `Posto B`; the manual
extraction pairs the first price with the first heading and returns `Posto A` with that
price. -/
theorem manualStations_pairs_by_rank :
    twoHeadingsMarkup =
      "<html><body>" ++ "<h3>Posto A</h3>" ++ "<h3>Posto B</h3>" ++ "<p>" ++ "R$ 1,00" ++
        "</p></body></html>" ∧
    manualStations "gasolina" twoHeadingsMarkup =
      [{ name := "Posto A", address := "Endereço não disponível", city := "Salvador",
         state := "BA", price := JsNumber.value ⟨100, 2⟩, fuelType := "gasolina" }] ∧
    (extractStationsFromPage "gasolina" (staticEnv [] twoHeadingsMarkup) World.fresh).1 =
      Outcome.ok
        [{ name := "Posto A", address := "Endereço não disponível", city := "Salvador",
           state := "BA", price := JsNumber.value ⟨100, 2⟩, fuelType := "gasolina" }] := by
  refine ⟨rfl, by decide!, by decide!⟩

/-- C18.  The price text `R$ 5,79` gives the price 5.79 and a card without price element
gives 0; the price text `R$ ,` matches the pattern with the group `,`, which `parseFloat`
reads as `NaN`: the structured pass produces a record whose price is not a number. -/
theorem structured_price_can_be_nan :
    cardPrice (some "R$ 5,79") = JsNumber.value ⟨579, 2⟩ ∧
    (⟨579, 2⟩ : Decimal).toRat = 579 / 100 ∧
    cardPrice none = JsNumber.value ⟨0, 0⟩ ∧
    cardPrice (some "R$ ,") = JsNumber.nan ∧
    evaluateCards "gasolina" [commaPriceCard] =
      [{ name := "Posto X", address := "Endereço não disponível",
         city := "Cidade não disponível", state := "BA", price := JsNumber.nan,
         fuelType := "gasolina" }] := by
  refine ⟨by decide!, by norm_num [Decimal.toRat], by decide!, by decide!, by decide!⟩

end ScraperService

namespace BrowserManager

/-! ### The launch guard -/

theorem guarded_initializeCall (s : State) (t : Bool) (h : Guarded s) :
    Guarded (initializeCall s t).2 := by
  unfold initializeCall
  cases hb : s.browser with
  | some b => exact h
  | none =>
    simp only []
    rcases h with ⟨hp, hi⟩ | ⟨l, hp, hi, hpr, _⟩
    · simp only [hi, Bool.false_eq_true, if_false]
      cases t with
      | true => exact Or.inl ⟨hp, rfl⟩
      | false =>
        simp only [Bool.false_eq_true, if_false]
        exact Or.inr ⟨s.launches, by simp [hp], rfl, rfl, rfl⟩
    · simp only [hi, if_true]
      exact Or.inr ⟨l, hp, hi, hpr, hb⟩

theorem guarded_launchFulfilled (s : State) (l : Nat) (h : Guarded s) :
    Guarded (launchFulfilled s l) := by
  unfold launchFulfilled
  split
  · rename_i hmem
    rcases h with ⟨hp, _⟩ | ⟨l2, hp, _, _, _⟩
    · rw [hp] at hmem
      simp at hmem
    · rw [hp] at hmem
      simp only [List.mem_singleton] at hmem
      subst hmem
      exact Or.inl ⟨by simp [hp], rfl⟩
  · exact h

theorem guarded_launchRejected (s : State) (l : Nat) (h : Guarded s) :
    Guarded (launchRejected s l) := by
  unfold launchRejected
  split
  · rename_i hmem
    rcases h with ⟨hp, _⟩ | ⟨l2, hp, _, _, _⟩
    · rw [hp] at hmem
      simp at hmem
    · rw [hp] at hmem
      simp only [List.mem_singleton] at hmem
      subst hmem
      exact Or.inl ⟨by simp [hp], rfl⟩
  · exact h

theorem guarded_run (steps : List Step) : ∀ s, Guarded s → Guarded (run s steps) := by
  induction steps with
  | nil => intro s h; exact h
  | cons st rest ih =>
    intro s h
    have hs : Guarded (step s st) := by
      cases st with
      | call t => exact guarded_initializeCall s t h
      | fulfilled l => exact guarded_launchFulfilled s l h
      | rejected l => exact guarded_launchRejected s l h
    exact ih _ hs

/-- C14.  After every sequence of calls of the method and settlings of launches, starting
from a new manager: at most one launch is pending, and a browser does not exist while a
launch is pending.  A call that arrives then gives its caller the existing browser if
there is one, and the stored promise of the pending launch if one is pending, in both
cases without starting a launch; a call starts a launch only when no browser exists and
no launch is pending, and gives its caller the promise of that launch, which is the one
every caller gets until it settles. -/
theorem single_launch_in_flight (steps : List Step) (t : Bool) :
    (run new steps).pending.length ≤ 1 ∧
    (∀ l ∈ (run new steps).pending, (run new steps).browser = none) ∧
    (∀ b, (run new steps).browser = some b →
      initializeCall (run new steps) t = (Reply.browser b, run new steps)) ∧
    (∀ l ∈ (run new steps).pending,
      initializeCall (run new steps) t = (Reply.promise (some l), run new steps)) ∧
    ((initializeCall (run new steps) t).2.launches ≠ (run new steps).launches →
      (run new steps).browser = none ∧ (run new steps).pending = [] ∧
      (initializeCall (run new steps) t).1 = Reply.promise (some (run new steps).launches) ∧
      (initializeCall (run new steps) t).2.pending = [(run new steps).launches] ∧
      ∀ t2, initializeCall (initializeCall (run new steps) t).2 t2 =
        (Reply.promise (some (run new steps).launches), (initializeCall (run new steps) t).2)) := by
  have hg : Guarded (run new steps) := guarded_run steps new (Or.inl ⟨rfl, rfl⟩)
  generalize run new steps = s at hg
  refine ⟨?_, ?_, ?_, ?_, ?_⟩
  · rcases hg with ⟨hp, _⟩ | ⟨l, hp, _, _, _⟩ <;> simp [hp]
  · intro l hl
    rcases hg with ⟨hp, _⟩ | ⟨l2, _, _, _, hb⟩
    · rw [hp] at hl
      simp at hl
    · exact hb
  · intro b hb
    simp [initializeCall, hb]
  · intro l hl
    rcases hg with ⟨hp, _⟩ | ⟨l2, hp, hi, hpr, hb⟩
    · rw [hp] at hl
      simp at hl
    · rw [hp] at hl
      simp only [List.mem_singleton] at hl
      subst hl
      simp [initializeCall, hb, hi, hpr]
  · intro hne
    rcases hg with ⟨hp, hi⟩ | ⟨l2, hp, hi, hpr, hb⟩
    · cases hb : s.browser with
      | some b => simp [initializeCall, hb] at hne
      | none =>
        cases t with
        | true => simp [initializeCall, hb, hi] at hne
        | false =>
          refine ⟨rfl, hp, by simp [initializeCall, hb, hi], by simp [initializeCall, hb, hi, hp],
            ?_⟩
          intro t2
          simp [initializeCall, hb, hi]
    · simp [initializeCall, hb, hi] at hne

/-- C14 (witness).  Two calls during the first launch, then the launch is fulfilled: a
third call gets the browser of that launch, and one launch was started in all. -/
theorem single_launch_in_flight_witness :
    initializeCall (run new [Step.call false, Step.call false, Step.fulfilled 0]) false =
      (Reply.browser 0, run new [Step.call false, Step.call false, Step.fulfilled 0]) ∧
    (run new [Step.call false, Step.call false, Step.fulfilled 0]).launches = 1 :=
  ⟨(single_launch_in_flight [Step.call false, Step.call false, Step.fulfilled 0] false).2.2.1 0
    (by decide), by decide⟩

end BrowserManager

namespace GeocodingService

open Config ScraperService

/-! ### City lookup -/

/-- C12 (counterexample).  The query `freitas` is a substring of the known city
`teixeira de freitas`, whose coordinates are (-17.5399, -39.7428); the approximate search
stops at `lauro de freitas`, which comes earlier in the table, and returns its
coordinates. -/
theorem getCityCoordinates_first_match_counterexample :
    matchesCity (normalizeCity "freitas") "teixeira de freitas" = true ∧
    cities.lookup "teixeira de freitas" = some ⟨-17.5399, -39.7428⟩ ∧
    getCityCoordinates "freitas" "BA" = Property.own ⟨-12.8978, -38.3269⟩ ∧
    getCityCoordinates "freitas" "BA" ≠ Property.own ⟨-17.5399, -39.7428⟩ := by
  refine ⟨by decide!, by decide!, by decide!, by decide!⟩

/-- C12 (amended).  For every query city name, with `normalize` the lower-casing and
accent-stripping of the runtime: when the normalized query is not the name of a property
of the table, and a known city of the table is such that the normalized query is a
substring or a superstring of its accent-stripped name while this holds for no city listed
before it, `getCityCoordinates` returns the coordinates of that known city. -/
theorem getCityCoordinates_first_match (normalize : String → String) (city state : String)
    (before after : List (String × Coordinates)) (known : String × Coordinates)
    (htable : cities = before ++ known :: after)
    (hexact : readProperty cities (normalize city) = Property.undefined)
    (hmatch : matchesCity (normalize city) known.1 = true)
    (hfirst : ∀ e ∈ before, matchesCity (normalize city) e.1 = false) :
    getCityCoordinatesWith normalize city state = Property.own known.2 := by
  have hfind : cities.find? (fun e => matchesCity (normalize city) e.1) = some known := by
    rw [htable, List.find?_append]
    have hnone : before.find? (fun e => matchesCity (normalize city) e.1) = none := by
      rw [List.find?_eq_none]
      intro e he
      simp [hfirst e he]
    rw [hnone]
    simp [List.find?_cons, hmatch]
  unfold getCityCoordinatesWith lookupNormalizedCity
  rw [hexact]
  simp only [hfind]

/-- C12 (witness).  The query `Freitas` resolves to `lauro de freitas`, the first city of
the table that contains it; the query `itabuna sālvador`, which the runtime normalizes to
`itabuna salvador`, resolves to `salvador`, listed before `itabuna`. -/
theorem getCityCoordinates_first_match_witness :
    getCityCoordinates "Freitas" "BA" = Property.own ⟨-12.8978, -38.3269⟩ ∧
    getCityCoordinatesWith (fun _ => "itabuna salvador") "itabuna sālvador" "BA" =
      Property.own ⟨-12.9714, -38.5014⟩ :=
  ⟨getCityCoordinates_first_match normalizeCity "Freitas" "BA" (cities.take 6) (cities.drop 7)
    ("lauro de freitas", ⟨-12.8978, -38.3269⟩) (by decide!) (by decide!) (by decide!)
    (by decide!),
   getCityCoordinates_first_match (fun _ => "itabuna salvador") "itabuna sālvador" "BA"
    [] (cities.drop 1) ("salvador", ⟨-12.9714, -38.5014⟩) (by decide!) (by decide!)
    (by decide!) (by decide!)⟩

/-- C13.  The city name `constructor` is not a key of the table and is neither a
substring nor a superstring of the name of any table city, yet `getCityCoordinates` does
not return the coordinates of Salvador: the property read `config.cities[normalizedCity]`
finds the member `constructor` that the table inherits from `Object.prototype`, and the
method returns that member. -/
theorem getCityCoordinates_inherited_member :
    normalizeCity "constructor" = "constructor" ∧
    cities.lookup "constructor" = none ∧
    (∀ e ∈ cities, matchesCity (normalizeCity "constructor") e.1 = false) ∧
    getCityCoordinates "constructor" "BA" = Property.inherited "constructor" ∧
    getCityCoordinates "constructor" "BA" ≠ Property.own ⟨-12.9714, -38.5014⟩ := by
  refine ⟨by decide!, by decide!, by decide!, by decide!, by decide!⟩

/-- C19.  For every city of the table and every query whose lower-cased, accent-stripped
form is the accent-stripped name of that city (the name in any letter case, with or
without its accents), `getCityCoordinates` returns the coordinates of that city, whatever
the state; `Salvador` with the state `BA` is found by the exact property read and gives
latitude -12.9714, longitude -38.5014. -/
theorem getCityCoordinates_known_city (city state : String) (known : String × Coordinates)
    (hknown : known ∈ cities) (hname : normalizeCity city = stripAccents known.1) :
    getCityCoordinates city state = Property.own known.2 ∧
    readProperty cities (normalizeCity "Salvador") = Property.own ⟨-12.9714, -38.5014⟩ ∧
    getCityCoordinates "Salvador" "BA" = Property.own ⟨-12.9714, -38.5014⟩ := by
  refine ⟨?_, by decide!, by decide!⟩
  have hall : ∀ e ∈ cities, lookupNormalizedCity (stripAccents e.1) = Property.own e.2 := by
    decide!
  unfold getCityCoordinates getCityCoordinatesWith
  rw [hname]
  exact hall known hknown

/-- C19 (witness).  The city `camaçari` written in capitals, and written without its
cedilla. -/
theorem getCityCoordinates_known_city_witness :
    getCityCoordinates "CAMAÇARI" "BA" = Property.own ⟨-12.6996, -38.3263⟩ ∧
    getCityCoordinates "Camacari" "SP" = Property.own ⟨-12.6996, -38.3263⟩ :=
  ⟨(getCityCoordinates_known_city "CAMAÇARI" "BA" ("camaçari", ⟨-12.6996, -38.3263⟩)
      (by decide!) (by decide!)).1,
   (getCityCoordinates_known_city "Camacari" "SP" ("camaçari", ⟨-12.6996, -38.3263⟩)
      (by decide!) (by decide!)).1⟩

end GeocodingService

namespace FuelController

open Config ScraperService

/-! ### Validation of the fuel type -/

/-- C11.  For a valid postal code (and a valid city name) and the type `Constructor`,
whose lower-cased form `constructor` is none of the five supported identifiers, the
controllers do not answer with status 400: the property read
`config.fuelTypes[fuelType]` finds the member `constructor` inherited from
`Object.prototype`, the scraper service is called, and a tab is acquired. -/
theorem inherited_type_passes_validation :
    fuelTypeOf inheritedTypeQuery = "constructor" ∧
    "constructor" ∉ fuelTypes.map Prod.fst ∧
    (getFuelStationsByCep inheritedTypeQuery (Completion.returned sampleCoordinates)
        (staticEnv [] "<html><body></body></html>") World.fresh).1 =
      Response.result
        { success := true, data := [],
          meta := { total := 0, radius := 5, cep := "40000000",
                    coordinates := sampleCoordinates },
          error := none } ∧
    Event.getPage (Outcome.ok ()) ∈
      (getFuelStationsByCep inheritedTypeQuery (Completion.returned sampleCoordinates)
        (staticEnv [] "<html><body></body></html>") World.fresh).2.log ∧
    (getFuelStationsByCity inheritedTypeQuery (Completion.returned sampleCoordinates)
        (staticEnv [] "<html><body></body></html>") World.fresh).1 =
      Response.result
        { success := true, data := [],
          meta := { total := 0, radius := 5, city := "Salvador", state := "BA",
                    coordinates := sampleCoordinates },
          error := none } ∧
    Event.getPage (Outcome.ok ()) ∈
      (getFuelStationsByCity inheritedTypeQuery (Completion.returned sampleCoordinates)
        (staticEnv [] "<html><body></body></html>") World.fresh).2.log := by
  refine ⟨by decide!, by decide!, by decide!, by decide!, by decide!, by decide!⟩

end FuelController

namespace ScraperService

/-! ### When the markup is read -/

theorem contentFollows_of_no_content (fuelType : String) (es : List Event)
    (h : ∀ e ∈ es, e.isContent = false) : ContentFollowsEmptyPass fuelType es := by
  intro a c b heq
  exfalso
  have hc := h (Event.content c) (by rw [heq]; simp)
  simp [Event.isContent] at hc

theorem contentFollows_append (fuelType : String) (es1 es2 : List Event)
    (h1 : ContentFollowsEmptyPass fuelType es1) (h2 : ContentFollowsEmptyPass fuelType es2) :
    ContentFollowsEmptyPass fuelType (es1 ++ es2) := by
  intro a c b heq
  rcases List.append_eq_append_iff.mp heq with ⟨a1, ha, hb⟩ | ⟨c1, hc, hd⟩
  · obtain ⟨a2, cards, ha2, hcards⟩ := h2 a1 c b hb
    exact ⟨es1 ++ a2, cards, by rw [ha, ha2, List.append_assoc], hcards⟩
  · cases c1 with
    | nil =>
      simp only [List.nil_append] at hd
      obtain ⟨a2, cards, ha2, _⟩ := h2 [] c b hd.symm
      simp at ha2
    | cons x c2 =>
      simp only [List.cons_append, List.cons.injEq] at hd
      rw [← hd.1] at hc
      exact h1 a c c2 hc

theorem reads_of_emits {α : Type} (fuelType : String) {m : Run α}
    (h : Emits (fun e => e.isContent = false) m) : ReadsMarkupAfterEmptyPass fuelType m := by
  intro env w
  obtain ⟨es, hlog, hes⟩ := h env w
  exact ⟨es, hlog, contentFollows_of_no_content fuelType es hes⟩

theorem reads_andThen {α β : Type} {fuelType : String} {m : Run α} {f : α → Run β}
    (hm : ReadsMarkupAfterEmptyPass fuelType m)
    (hf : ∀ a, ReadsMarkupAfterEmptyPass fuelType (f a)) :
    ReadsMarkupAfterEmptyPass fuelType (Run.andThen m f) := by
  intro env w
  obtain ⟨es1, h1, p1⟩ := hm env w
  unfold Run.andThen
  cases hr : m env w with
  | mk r w1 =>
    rw [hr] at h1
    simp only [] at h1
    cases r with
    | ok a =>
      obtain ⟨es2, h2, p2⟩ := hf a env w1
      exact ⟨es1 ++ es2, by simp only [h2, h1, List.append_assoc],
        contentFollows_append fuelType es1 es2 p1 p2⟩
    | error e => exact ⟨es1, h1, p1⟩

theorem reads_tryCatch {α : Type} {fuelType : String} {m : Run α} {h : JsError → Run α}
    (hm : ReadsMarkupAfterEmptyPass fuelType m)
    (hh : ∀ e, ReadsMarkupAfterEmptyPass fuelType (h e)) :
    ReadsMarkupAfterEmptyPass fuelType (Run.tryCatch m h) := by
  intro env w
  obtain ⟨es1, h1, p1⟩ := hm env w
  unfold Run.tryCatch
  cases hr : m env w with
  | mk r w1 =>
    rw [hr] at h1
    simp only [] at h1
    cases r with
    | ok a => exact ⟨es1, h1, p1⟩
    | error e =>
      obtain ⟨es2, h2, p2⟩ := hh e env w1
      exact ⟨es1 ++ es2, by simp only [h2, h1, List.append_assoc],
        contentFollows_append fuelType es1 es2 p1 p2⟩

theorem reads_extractStationsFromPage (fuelType : String) :
    ReadsMarkupAfterEmptyPass fuelType (extractStationsFromPage fuelType) := by
  intro env w
  unfold extractStationsFromPage
  simp only [bind_eq, pure_eq]
  unfold Run.tryCatch Run.andThen pageCards
  cases hc : env.evaluateCards w.log with
  | error e =>
    exact ⟨[Event.evaluateCards (Outcome.error e)], by simp [Run.ret],
      contentFollows_of_no_content _ _ (by simp [Event.isContent])⟩
  | ok cards =>
    simp only []
    by_cases hlen : (evaluateCards fuelType cards).length = 0
    · have hnil : evaluateCards fuelType cards = [] := List.length_eq_zero.mp hlen
      have hq : ∀ c, ContentFollowsEmptyPass fuelType
          [Event.evaluateCards (Outcome.ok cards), Event.content c] := by
        intro c a c2 b heq
        cases a with
        | nil => simp at heq
        | cons x a2 =>
          cases a2 with
          | nil =>
            simp only [List.cons_append, List.nil_append, List.cons.injEq] at heq
            exact ⟨[], cards, by simp [heq.1], hnil⟩
          | cons y a3 =>
            exfalso
            have hl := congrArg List.length heq
            simp at hl
      simp only [hlen, if_true, pageContent]
      refine ⟨[Event.evaluateCards (Outcome.ok cards),
        Event.content (env.content (w.log ++ [Event.evaluateCards (Outcome.ok cards)]))], ?_,
        hq _⟩
      cases hh : env.content (w.log ++ [Event.evaluateCards (Outcome.ok cards)]) with
      | error e => simp [Run.ret]
      | ok html =>
        simp only []
        by_cases hg : hasPriceInfo html.data = true
        · simp [hg, Run.ret]
        · have hg2 : hasPriceInfo html.data = false := by simpa using hg
          simp [hg2, Run.ret]
    · simp only [hlen, if_false, Run.ret]
      exact ⟨[Event.evaluateCards (Outcome.ok cards)], by simp,
        contentFollows_of_no_content _ _ (by simp [Event.isContent])⟩

theorem reads_searchOnPage (cacheKey : String) (coordinates : Coordinates)
    (fuelType : String) (radius : Int) :
    ReadsMarkupAfterEmptyPass fuelType (searchOnPage cacheKey coordinates fuelType radius) := by
  unfold searchOnPage
  simp only [bind_eq, pure_eq]
  refine reads_andThen (reads_of_emits fuelType
    (emits_driveSearch coordinates fuelType radius (fun _ _ => rfl) (fun _ _ _ => rfl)))
    fun _ => ?_
  refine reads_andThen (reads_extractStationsFromPage fuelType) fun stations => ?_
  split
  · unfold getFuelStationsAlternative
    simp only [bind_eq, pure_eq]
    refine reads_tryCatch ?_ (fun _ => reads_of_emits fuelType (emits_ret _ _))
    refine reads_andThen (reads_of_emits fuelType (emits_perform _ (fun _ => rfl))) fun _ => ?_
    refine reads_andThen (reads_of_emits fuelType (emits_perform _ (fun _ => rfl))) fun _ => ?_
    exact reads_andThen (reads_extractStationsFromPage fuelType)
      fun _ => reads_of_emits fuelType (emits_ret _ _)
  · refine reads_of_emits fuelType ?_
    refine emits_andThen (emits_configCacheTtl _) fun ttl => ?_
    exact emits_andThen (emits_cacheSet _ _ _ (fun _ => rfl)) fun _ => emits_ret _ _

theorem byCoordinates_events (coordinates : Coordinates) (fuelType : String)
    (radius : Int) (env : Env) (w : World) :
    ∃ pre rest,
      (getFuelStationsByCoordinates coordinates fuelType radius env w).2.log =
        w.log ++ (pre ++ rest) ∧
      (∀ e ∈ pre, ∃ t, e = Event.dateNow t) ∧
      (rest = [] ∨
        (∃ err, rest = [Event.getPage (Outcome.error err)]) ∨
        (∃ body r w2,
          rest = Event.getPage (Outcome.ok ()) :: (body ++ [Event.act Action.close r]) ∧
          (searchOnPage (cacheKeyOf env coordinates fuelType radius) coordinates fuelType
            radius env w2).2.log = w2.log ++ body)) := by
  obtain ⟨v, pre, w1, hget, hlog1, hpre⟩ :=
    cacheGet_spec (cacheKeyOf env coordinates fuelType radius) env w
  refine ⟨pre, ?_⟩
  unfold getFuelStationsByCoordinates
  simp only [bind_eq, pure_eq]
  unfold Run.andThen
  simp only [hget]
  cases v with
  | some data => exact ⟨[], by simp [Run.ret, hlog1], hpre, Or.inl rfl⟩
  | none =>
    simp only [tryCatch_throw_world]
    cases hgp : env.getPage w1.log with
    | error err =>
      refine ⟨[Event.getPage (Outcome.error err)], ?_, hpre, Or.inr (Or.inl ⟨err, rfl⟩)⟩
      simp only [getPage, hgp]
      simp [hlog1]
    | ok u =>
      obtain ⟨body, hbody, _⟩ :=
        emits_searchOnPage (P := fun _ => True)
          (cacheKeyOf env coordinates fuelType radius) coordinates fuelType radius
          (fun _ _ => trivial) (fun _ => trivial) (fun _ => trivial) (fun _ => trivial)
          (fun _ _ _ => trivial)
          env { w1 with log := w1.log ++ [Event.getPage (Outcome.ok u)] }
      refine ⟨Event.getPage (Outcome.ok ()) :: (body ++ [Event.act Action.close
          (env.act ((searchOnPage (cacheKeyOf env coordinates fuelType radius) coordinates
            fuelType radius env
            { w1 with log := w1.log ++ [Event.getPage (Outcome.ok u)] }).2.log) Action.close)]),
        ?_, hpre, Or.inr (Or.inr ⟨body, _, _, rfl, hbody⟩)⟩
      simp only [getPage, hgp, tryFinally_perform_log, hbody]
      simp [hlog1]

/-- C16 (counterexample).  On a first results page without card elements whose markup
holds prices and the word `Posto`, the manual extraction is applied to the first page:
its records are returned, and the run never navigates to the alternative search. -/
theorem manual_extraction_on_first_page_counterexample :
    (getFuelStationsByCoordinates sampleCoordinates "gasolina" 5
        (staticEnv [] descendingMarkup) World.fresh).1 =
      Outcome.ok (manualStations "gasolina" descendingMarkup) ∧
    (manualStations "gasolina" descendingMarkup).length = 2 ∧
    Event.content (Outcome.ok descendingMarkup) ∈
      (getFuelStationsByCoordinates sampleCoordinates "gasolina" 5
        (staticEnv [] descendingMarkup) World.fresh).2.log ∧
    ((getFuelStationsByCoordinates sampleCoordinates "gasolina" 5
        (staticEnv [] descendingMarkup) World.fresh).2.log.any
      (Event.isNavigationTo (alternativeUrl sampleCoordinates 5))) = false := by
  refine ⟨by decide!, by decide!, by decide!, by decide!⟩

/-- C16 (amended).  In every run of `getFuelStationsByCoordinates`, on the first results
page as on the page of the alternative search, the markup of the page is read (and the
manual extraction applied to it) only directly after a page script whose cards gave the
structured pass zero station records. -/
theorem markup_read_only_after_empty_pass (coordinates : Coordinates) (fuelType : String)
    (radius : Int) (env : Env) (w : World) :
    ∃ es,
      (getFuelStationsByCoordinates coordinates fuelType radius env w).2.log = w.log ++ es ∧
      ∀ a c b, es = a ++ Event.content c :: b →
        ∃ a2 cards, a = a2 ++ [Event.evaluateCards (Outcome.ok cards)] ∧
          evaluateCards fuelType cards = [] := by
  obtain ⟨pre, rest, hlog, hpre, hrest⟩ :=
    byCoordinates_events coordinates fuelType radius env w
  refine ⟨pre ++ rest, hlog, ?_⟩
  have hq1 : ContentFollowsEmptyPass fuelType pre := by
    refine contentFollows_of_no_content _ _ ?_
    intro e he
    obtain ⟨t, rfl⟩ := hpre e he
    rfl
  have hq2 : ContentFollowsEmptyPass fuelType rest := by
    rcases hrest with h | ⟨err, h⟩ | ⟨body, r, w2, h, hbody⟩
    · rw [h]
      exact contentFollows_of_no_content _ _ (by simp)
    · rw [h]
      exact contentFollows_of_no_content _ _ (by simp [Event.isContent])
    · obtain ⟨es, hes, hq⟩ := reads_searchOnPage (cacheKeyOf env coordinates fuelType radius)
        coordinates fuelType radius env w2
      have heq : es = body := List.append_cancel_left (hes.symm.trans hbody)
      rw [h]
      have hcons : Event.getPage (Outcome.ok ()) :: (body ++ [Event.act Action.close r]) =
          [Event.getPage (Outcome.ok ())] ++ (body ++ [Event.act Action.close r]) := rfl
      rw [hcons]
      refine contentFollows_append _ _ _
        (contentFollows_of_no_content _ _ (by simp [Event.isContent])) ?_
      exact contentFollows_append _ _ _ (heq ▸ hq)
        (contentFollows_of_no_content _ _ (by simp [Event.isContent]))
  exact contentFollows_append _ _ _ hq1 hq2

end ScraperService
